import Mathlib

/-!
# Verification of the CTE batch-upload pipeline

Shallow embedding of the batch ingestion pipeline of the `ctes-assinados`
repository: the image normalizer (`src/lib/imageProcessor.ts`), the AI
extraction client with retry/backoff (`services/api.ts`, the variant with
retry logic), and the batch queue controller
(`src/components/BatchUploader/BatchManager.tsx`).

Numbers are embedded as `Nat`/`Int`/`ℚ` (JS numbers here are all small
integers or exact right-angle trigonometric values), strings as `String`,
optional fields as `Option`, and fallible operations as `Except`.
-/

namespace Ctes

/-! ## Generic JS-style string helpers -/

/-- Decides whether `needle` occurs at the head of `hay` (character lists). -/
def startsWithChars : List Char → List Char → Bool
  | [], _ => true
  | _ :: _, [] => false
  | a :: as, b :: bs => a = b && startsWithChars as bs

/-- Decides whether `needle` occurs anywhere inside `hay` (character lists);
models JavaScript's `String.prototype.includes`. -/
def hasSubChars (needle : List Char) : List Char → Bool
  | [] => startsWithChars needle []
  | c :: rest => startsWithChars needle (c :: rest) || hasSubChars needle rest

/-- JS `hay.includes(needle)` on strings. -/
def jsIncludes (hay needle : String) : Bool :=
  hasSubChars needle.toList hay.toList

/-- ASCII lowercasing of one character; models JS `toLowerCase()` on the
ASCII strings this code base compares (all compared literals and thrown
messages are plain ASCII). -/
def asciiLowerChar (c : Char) : Char :=
  if 65 ≤ c.toNat ∧ c.toNat ≤ 90 then Char.ofNat (c.toNat + 32) else c

/-- JS `s.toLowerCase()`. -/
def jsToLower (s : String) : String := ⟨s.data.map asciiLowerChar⟩

/-- JS `Math.round (num / den)` for non-negative operands: round half up,
i.e. `⌊num/den + 1/2⌋`. -/
def jsRound (num den : Nat) : Nat := (2 * num + den) / (2 * den)

/-! ## Image Normalizer (`src/lib/imageProcessor.ts`, `processImage`)

Only the geometry of `processImage` is embedded (resize computation,
canvas dimensions, and the affine map the canvas applies to source
pixels); pixel contents and JPEG encoding are irrelevant to the claims. -/

/-- `const MAX_WIDTH = 1280` in `processImage`. -/
def MAX_WIDTH : Nat := 1280

/-- The resize computation of `processImage` on the decoded source
dimensions, before any rotation is applied:

```js
if (width > MAX_WIDTH || height > MAX_WIDTH) {
  const ratio = Math.min(...);            // computed but unused
  if (width > MAX_WIDTH) {
    height = Math.round((height * MAX_WIDTH) / width);
    width = MAX_WIDTH;
  }
}
```
-/
def scaledDims (w h : Nat) : Nat × Nat :=
  if w > MAX_WIDTH ∨ h > MAX_WIDTH then
    if w > MAX_WIDTH then (MAX_WIDTH, jsRound (h * MAX_WIDTH) w)
    else (w, h)
  else (w, h)

/-- Canvas (output) dimensions of `processImage`:

```js
canvas.width  = isRotatedSideways ? height : width;
canvas.height = isRotatedSideways ? width  : height;
```
where `isRotatedSideways = rotation === 90 || rotation === 270`. -/
def processDims (w h rot : Nat) : Nat × Nat :=
  let s := scaledDims w h
  if rot = 90 ∨ rot = 270 then (s.2, s.1) else s

/-- Exact cosine of the four right-angle rotations used by
`ctx.rotate((rotation * Math.PI) / 180)`. -/
def cosd (rot : Nat) : ℚ :=
  if rot = 0 then 1 else if rot = 90 then 0
  else if rot = 180 then -1 else if rot = 270 then 0 else 0

/-- Exact sine of the four right-angle rotations. -/
def sind (rot : Nat) : ℚ :=
  if rot = 0 then 0 else if rot = 90 then 1
  else if rot = 180 then 0 else if rot = 270 then -1 else 0

/-- The point of the canvas a source-image point `(x, y)` is drawn to:

```js
ctx.translate(canvas.width / 2, canvas.height / 2);
ctx.rotate((rotation * Math.PI) / 180);
ctx.drawImage(img, -width / 2, -height / 2, width, height);
```

The draw call maps the source rectangle `[0,w] × [0,h]` affinely onto
`[-w/2, w/2] × [-h/2, h/2]`, which is then rotated and translated by the
current transform. -/
def drawMap (w h cw ch : ℚ) (rot : Nat) (x y : ℚ) : ℚ × ℚ :=
  (cw / 2 + cosd rot * (x - w / 2) - sind rot * (y - h / 2),
   ch / 2 + sind rot * (x - w / 2) + cosd rot * (y - h / 2))

/-! ## Data model (`types.ts`) -/

/-- `ExtractedData` of `types.ts`; the optional `needsReview` boolean is
absent on freshly enqueued items, which the embedding renders as `false`
(JS `undefined` is falsy everywhere the field is read). -/
structure ExtractedData where
  numeroDoc : String
  dataEmissao : String
  serie : String
  needsReview : Bool := false
  deriving DecidableEq, Repr

/-- `BatchItemStatus` of `types.ts` (feature-complete variant, including
`paused`). -/
inductive Status where
  | queued | paused | processing_image | analyzing_ai | ready
  | uploading | success | error
  deriving DecidableEq, Repr

/-- `BatchItem` of `types.ts`. The `File` handle is reduced to its media
kind (the only property the controller reads); ids are embedded as `Nat`
(the code uses `crypto.randomUUID()`, whose relevant property is
freshness). -/
structure BatchItem where
  id : Nat
  fileIsPdf : Bool
  previewUrl : Option String
  base64 : Option String
  rotation : Nat
  data : ExtractedData
  status : Status
  errorMessage : Option String
  deriving DecidableEq, Repr

/-- `UploadPayload` of `types.ts`. -/
structure UploadPayload where
  ano : String
  mes : String
  dia : String
  serie : String
  numeroDoc : String
  mimeType : String
  imagemBase64 : String
  deriving DecidableEq, Repr

/-- The part of `ProcessedImage` the controller consumes. -/
structure ProcessedLite where
  base64 : String
  previewUrl : String
  deriving DecidableEq, Repr

/-! ## Field Extraction Client (`services/api.ts`, retry variant,
`extractDataFromImage`) -/

/-- What one `ai.models.generateContent` attempt can produce, as observed
by `extractDataFromImage`'s `try`/`catch`: either parsed data, or an
error described by its stringified form plus the `status` / `error.code`
numeric fields the catch block inspects. -/
inductive AttemptOutcome where
  | ok (d : ExtractedData)
  | fail (errorStr : String) (status : Option Nat) (errCode : Option Nat)
  deriving DecidableEq, Repr

/-- `isQuotaError` of the catch block:

```js
errorStr.includes("429") || errorStr.includes("RESOURCE_EXHAUSTED") ||
errorStr.includes("quota") || error?.status === 429 || error?.error?.code === 429
``` -/
def isQuotaError (errorStr : String) (status errCode : Option Nat) : Bool :=
  jsIncludes errorStr "429" || jsIncludes errorStr "RESOURCE_EXHAUSTED" ||
  jsIncludes errorStr "quota" || status = some 429 || errCode = some 429

/-- `isServerOverload` of the catch block:

```js
errorStr.includes("503") || error?.status === 503 || error?.error?.code === 503
``` -/
def isServerOverload (errorStr : String) (status errCode : Option Nat) : Bool :=
  jsIncludes errorStr "503" || status = some 503 || errCode = some 503

/-- Message thrown when retries are exhausted on a quota-classified error. -/
def quotaMsg : String :=
  "Sistema de IA sobrecarregado (Cota Excedida). Aguarde alguns segundos e tente novamente."

/-- Message thrown on any other fatal extraction error. -/
def extractFailMsg : String :=
  "Falha ao processar imagem com IA. Verifique a qualidade da imagem."

/-- `const maxRetries = 4`. -/
def maxRetries : Nat := 4

/-- One pass of the `while (attempt < maxRetries)` loop of
`extractDataFromImage`, driven by `outcomes : Nat → AttemptOutcome`
(the result of the network attempt made when `attempt` has the given
value). Returns the backoff delays slept (in ms, in order) and the
overall result. `fuel` bounds the loop textually (`maxRetries - attempt`
iterations remain); the `fuel = 0` case is the `throw` after the loop.

```js
if ((isQuotaError || isServerOverload) && attempt < maxRetries - 1) {
  attempt++;
  const waitTime = Math.pow(2, attempt) * 2000;
  await delay(waitTime);
  continue;
}
if (isQuotaError) throw new Error(quotaMsg);
throw new Error(extractFailMsg);
``` -/
def extractLoop (outcomes : Nat → AttemptOutcome) :
    Nat → Nat → List Nat × Except String ExtractedData
  | _, 0 => ([], .error "Falha de conexão com IA após múltiplas tentativas.")
  | attempt, fuel + 1 =>
    match outcomes attempt with
    | .ok d => ([], .ok d)
    | .fail errorStr status errCode =>
      if (isQuotaError errorStr status errCode || isServerOverload errorStr status errCode)
          && attempt < maxRetries - 1 then
        let waitTime := 2 ^ (attempt + 1) * 2000
        let rest := extractLoop outcomes (attempt + 1) fuel
        (waitTime :: rest.1, rest.2)
      else if isQuotaError errorStr status errCode then ([], .error quotaMsg)
      else ([], .error extractFailMsg)

/-- `extractDataFromImage` as a function of the sequence of attempt
outcomes: the loop starts with `attempt = 0` and runs while
`attempt < maxRetries`. -/
def extractModel (outcomes : Nat → AttemptOutcome) :
    List Nat × Except String ExtractedData :=
  extractLoop outcomes 0 maxRetries

/-! ## Batch Queue Controller — functional model of one drain-loop
iteration (`BatchManager.tsx`, `startQueue`, lines 146–301)

One iteration of the `for` loop is a function of the item (as read from
`itemsRef` at the top of the iteration) and of the outcomes of the three
awaited collaborator calls. The three `await`ed results are supplied by
an `IterEnv`; React `setItems` updates are composed into the final item
value (the loop body only ever touches the entry with the current id). -/

/-- Outcomes of the awaited collaborator calls inside one iteration:
PDF conversion + `processImage` (collapsed into one `Except`, matching
the single `try` around both), `extractDataFromImage`, `uploadToDrive`.
Errors carry the thrown `err.message`. -/
structure IterEnv where
  imageResult : Except String ProcessedLite
  extractResult : Except String ExtractedData
  uploadResult : Except String Unit

/-- Result of one iteration: the item's final value, whether
`extractDataFromImage` was invoked, and the payload passed to
`uploadToDrive` if it was invoked. -/
structure IterResult where
  item : BatchItem
  invokedAI : Bool
  uploadAttempt : Option UploadPayload
  deriving Repr

/-- `errorMessage` set on a quota-classified failure in the drain loop. -/
def quotaFallbackMsg : String := "Cota Excedida. Preencha Manualmente."

/-- The `catch` block of the loop body (lines 286–300):

```js
const errorMessage = err.message || "Erro desconhecido";
const isQuotaError = errorMessage.toLowerCase().includes("cota")
                  || errorMessage.toLowerCase().includes("quota");
setItems(... status: 'error',
  errorMessage: isQuotaError ? "Cota Excedida. Preencha Manualmente." : errorMessage,
  base64: undefined ...);
``` -/
def runCatch (it : BatchItem) (msg : String) : BatchItem :=
  let m := if msg = "" then "Erro desconhecido" else msg
  let isQuota := jsIncludes (jsToLower m) "cota" || jsIncludes (jsToLower m) "quota"
  { it with status := .error,
            errorMessage := some (if isQuota then quotaFallbackMsg else m),
            base64 := none }

/-- `errorMessage` set when an item is held for review (line 238). -/
def reviewHoldMsg : String := "Confirme os dados antes do envio."

/-- JS `s || fallback` for strings (empty string is falsy; an absent
destructured element behaves the same). -/
def jsOr (s fallback : String) : String := if s = "" then fallback else s

/-- `isManualDataFilled` (line 200): all three required fields truthy. -/
def manualFilled (d : ExtractedData) : Bool :=
  d.numeroDoc ≠ "" && d.dataEmissao ≠ "" && d.serie ≠ ""

/-- The review-gate test (line 220): `extractedData.needsReview ||
!numeroDoc || !serie || !dataEmissao`. -/
def flagged (d : ExtractedData) : Bool :=
  d.needsReview || d.numeroDoc = "" || d.serie = "" || d.dataEmissao = ""

/-- The `uploadToDrive` payload built at lines 251–263:

```js
const [dia, mes, ano] = extractedData.dataEmissao.includes('/')
    ? extractedData.dataEmissao.split('/') : ['', '', ''];
uploadToDrive({ ano: ano || '2025', mes: mes || '01', dia: dia || '01',
  serie: extractedData.serie || 'N/A', numeroDoc: extractedData.numeroDoc,
  mimeType: 'image/jpeg', imagemBase64: processed.base64 });
``` -/
def buildPayload (d : ExtractedData) (base64 : String) : UploadPayload :=
  let parts := if d.dataEmissao.contains '/' then d.dataEmissao.splitOn "/"
               else ["", "", ""]
  { ano := jsOr (parts.getD 2 "") "2025"
    mes := jsOr (parts.getD 1 "") "01"
    dia := jsOr (parts.getD 0 "") "01"
    serie := jsOr d.serie "N/A"
    numeroDoc := d.numeroDoc
    mimeType := "image/jpeg"
    imagemBase64 := base64 }

/-- Steps C and D of the loop body (auto upload and success cleanup),
shared by the skip-AI and post-extraction paths. `d` is the
`extractedData` local at that point. -/
def uploadPhase (env : IterEnv) (it : BatchItem) (d : ExtractedData)
    (proc : ProcessedLite) (ai : Bool) : IterResult :=
  let payload := buildPayload d proc.base64
  match env.uploadResult with
  | .error m => ⟨runCatch it m, ai, some payload⟩
  | .ok _ =>
    ⟨{ it with status := .success, base64 := none, errorMessage := none },
     ai, some payload⟩

/-- One iteration of the drain loop on the item `it` (lines 163–300):
status is set to `processing_image`, the image is prepared, then either
the AI step runs (when the three required fields are not all filled) or
is skipped, then the review gate either holds the item in `ready` or the
auto-upload proceeds. -/
def processOne (env : IterEnv) (it : BatchItem) : IterResult :=
  match env.imageResult with
  | .error m => ⟨runCatch { it with status := .processing_image } m, false, none⟩
  | .ok proc =>
    let it1 := { it with status := .processing_image,
                         base64 := some proc.base64,
                         previewUrl := some proc.previewUrl,
                         rotation := 0 }
    if manualFilled it.data then
      -- fallback flow: skip AI, upload with the user-provided values
      uploadPhase env it1 it.data proc false
    else
      match env.extractResult with
      | .error m => ⟨runCatch { it1 with status := .analyzing_ai } m, true, none⟩
      | .ok d =>
        let it2 := { it1 with status := .analyzing_ai, data := d }
        if flagged d then
          ⟨{ it2 with status := .ready, errorMessage := some reviewHoldMsg },
           true, none⟩
        else
          uploadPhase env it2 d proc true

/-- The snapshot taken at the top of `startQueue` (lines 139–141): ids of
items whose status is `queued` or `error`. -/
def inSnapshot (it : BatchItem) : Bool :=
  it.status = .queued || it.status = .error

/-- A full drain-loop run over a queue with no user interference: each
snapshot item is processed by its own iteration (the loop body only
mutates the entry with the current id, so iterations are independent).
`envs n` supplies the collaborator outcomes of the `n`-th iteration. -/
def runQueue (items : List BatchItem) (envs : Nat → IterEnv) : List IterResult :=
  ((items.filter inSnapshot).enum).map fun p => processOne (envs p.1) p.2

/-! ## Batch Queue Controller — interleaving model

`BatchManager.tsx` runs on a single-threaded event loop: state mutations
are atomic blocks separated by `await` suspension points (PDF
conversion/`processImage`, the 400 ms manual-path timer,
`extractDataFromImage`, `uploadToDrive`, the inter-item delays). User
command handlers (`handleConfirmUpload`, `handleUpdateData`,
`handleRotate`, `handleRetry`, `handleRemove`, the clear buttons,
`handleFileSelect`) run between such blocks. The transition system below
has one step per atomic block, with the guards the code and its UI
impose (a button that is not rendered for a status cannot fire). -/

/-- Where the drain loop is suspended inside the current iteration. -/
inductive LPhase where
  /-- awaiting PDF conversion / `processImage`; item is `processing_image` -/
  | imgWait
  /-- manual-data path, awaiting the 400 ms timer; item is `processing_image` -/
  | timerWait
  /-- awaiting `extractDataFromImage`; item is `analyzing_ai` -/
  | aiWait
  /-- awaiting `uploadToDrive`; item is `uploading` -/
  | upWait
  deriving DecidableEq, Repr

/-- Controller state: the items array, whether `startQueue` is running
(`isRunning`), and — when the loop is suspended inside an iteration —
the current item's id and suspension point. -/
structure CState where
  items : List BatchItem
  running : Bool
  loop : Option (Nat × LPhase)
  deriving DecidableEq, Repr

/-- The empty initial state (`useState<BatchItem[]>([])`). -/
def initState : CState := { items := [], running := false, loop := none }

/-- `setItems(prev => prev.map(i => i.id === id ? f(i) : i))` — the only
way the code mutates an item. -/
def updItem (l : List BatchItem) (n : Nat) (f : BatchItem → BatchItem) :
    List BatchItem :=
  l.map fun it => if it.id = n then f it else it

/-- A freshly enqueued item (`handleFileSelect`, lines 96–113): status
`queued`, rotation 270 (automatic 90° counter-clockwise default), empty
data, instant preview only for images. -/
def newBatchItem (id : Nat) (isPdf : Bool) (url : String) : BatchItem :=
  { id := id, fileIsPdf := isPdf
    previewUrl := if isPdf then none else some url
    base64 := none, rotation := 270
    data := { numeroDoc := "", dataEmissao := "", serie := "" }
    status := .queued, errorMessage := none }

/-- An actively-processing status. -/
def activeS (s : Status) : Bool :=
  s = .processing_image || s = .analyzing_ai || s = .uploading

/-- `allowEditing` in `FileCard.tsx`: inputs, the rotate button and the
remove button are rendered/enabled only when the item is neither
successful nor actively processing. -/
def allowEditing (s : Status) : Bool := !(s = .success) && !(activeS s)

/-- The item status each suspension point implies (established by the
atomic block that entered the suspension). -/
def phaseStatus : LPhase → Status
  | .imgWait => .processing_image
  | .timerWait => .processing_image
  | .aiWait => .analyzing_ai
  | .upWait => .uploading

/-- The loop is currently holding the item with this id. -/
def loopHolds (st : CState) (id : Nat) : Prop :=
  ∃ ph, st.loop = some (id, ph)

/-- The atomic blocks of `BatchManager.tsx`, as a labelled transition
relation; the `Bool` index is `true` exactly on the blocks of
`handleConfirmUpload`. -/
inductive Step : Bool → CState → CState → Prop
  /-- `handleFileSelect` (enabled only while not running): appends fresh
  queued items with rotation 270 and empty data. -/
  | enqueue (specs : List (Nat × Bool × String)) {st : CState}
      (hrun : st.running = false)
      (hfresh : (st.items.map (·.id) ++ specs.map (·.1)).Nodup) :
      Step false st { st with
        items := st.items ++ specs.map fun t => newBatchItem t.1 t.2.1 t.2.2 }
  /-- `startQueue` entry (line 128–144): guarded by `if (isRunning) return`. -/
  | startLoop {st : CState} (hrun : st.running = false) (hloop : st.loop = none) :
      Step false st { st with running := true }
  /-- the loop finishes or breaks on the abort flag (only at the loop
  top, i.e. between iterations). -/
  | endLoop {st : CState} (hrun : st.running = true) (hloop : st.loop = none) :
      Step false st { st with running := false }
  /-- loop-top block of one iteration (lines 146–165): picks a snapshot
  item (its status was `queued`/`error` at snapshot time and nothing can
  have moved it elsewhere before its turn), sets `processing_image`, and
  suspends on image preparation. -/
  | iterBegin (id : Nat) {st : CState} (it : BatchItem)
      (hrun : st.running = true) (hloop : st.loop = none)
      (hmem : it ∈ st.items) (hid : it.id = id)
      (hstat : it.status = .queued ∨ it.status = .error) :
      Step false st { st with
        items := updItem st.items id fun i => { i with status := .processing_image }
        loop := some (id, .imgWait) }
  /-- image preparation threw: the `catch` block runs, iteration ends. -/
  | iterImgFail (id : Nat) (m : String) {st : CState}
      (hloop : st.loop = some (id, .imgWait)) :
      Step false st { st with
        items := updItem st.items id fun i => runCatch i m
        loop := none }
  /-- image done, required fields already filled (lines 186–228, manual
  flow): store the processed image, skip AI, suspend on the 400 ms timer. -/
  | iterImgManual (id : Nat) (proc : ProcessedLite) {st : CState} (it : BatchItem)
      (hloop : st.loop = some (id, .imgWait))
      (hmem : it ∈ st.items) (hid : it.id = id)
      (hman : manualFilled it.data = true) :
      Step false st { st with
        items := updItem st.items id fun i =>
          { i with base64 := some proc.base64, previewUrl := some proc.previewUrl,
                   rotation := 0 }
        loop := some (id, .timerWait) }
  /-- image done, fields not all filled (lines 186–210): store the
  processed image, enter `analyzing_ai`, suspend on the extraction call. -/
  | iterImgAI (id : Nat) (proc : ProcessedLite) {st : CState} (it : BatchItem)
      (hloop : st.loop = some (id, .imgWait))
      (hmem : it ∈ st.items) (hid : it.id = id)
      (hman : manualFilled it.data = false) :
      Step false st { st with
        items := updItem st.items id fun i =>
          { i with base64 := some proc.base64, previewUrl := some proc.previewUrl,
                   rotation := 0, status := .analyzing_ai }
        loop := some (id, .aiWait) }
  /-- manual-path timer elapsed; step C sets `uploading` and suspends on
  the upload call (lines 247–263). -/
  | iterTimerDone (id : Nat) {st : CState}
      (hloop : st.loop = some (id, .timerWait)) :
      Step false st { st with
        items := updItem st.items id fun i => { i with status := .uploading }
        loop := some (id, .upWait) }
  /-- extraction threw: the `catch` block runs, iteration ends. -/
  | iterAIFail (id : Nat) (m : String) {st : CState}
      (hloop : st.loop = some (id, .aiWait)) :
      Step false st { st with
        items := updItem st.items id fun i => runCatch i m
        loop := none }
  /-- extraction returned flagged data (lines 211–245): store it, hold
  the item in `ready` for review, iteration ends (`continue`). -/
  | iterAIHold (id : Nat) (d : ExtractedData) {st : CState}
      (hloop : st.loop = some (id, .aiWait)) (hflag : flagged d = true) :
      Step false st { st with
        items := updItem st.items id fun i =>
          { i with data := d, status := .ready, errorMessage := some reviewHoldMsg }
        loop := none }
  /-- extraction returned clean data (lines 211–263): store it, step C
  sets `uploading` (no suspension in between), suspend on the upload. -/
  | iterAIPass (id : Nat) (d : ExtractedData) {st : CState}
      (hloop : st.loop = some (id, .aiWait)) (hflag : flagged d = false) :
      Step false st { st with
        items := updItem st.items id fun i =>
          { i with data := d, status := .uploading }
        loop := some (id, .upWait) }
  /-- auto-upload succeeded (lines 265–271): success, release the cached
  image, iteration ends. -/
  | iterUpOk (id : Nat) {st : CState}
      (hloop : st.loop = some (id, .upWait)) :
      Step false st { st with
        items := updItem st.items id fun i =>
          { i with status := .success, base64 := none, errorMessage := none }
        loop := none }
  /-- auto-upload threw: the `catch` block runs, iteration ends. -/
  | iterUpFail (id : Nat) (m : String) {st : CState}
      (hloop : st.loop = some (id, .upWait)) :
      Step false st { st with
        items := updItem st.items id fun i => runCatch i m
        loop := none }
  /-- `handleConfirmUpload` synchronous prefix (lines 343–354): the
  confirm button is rendered only for `ready` items, the handler
  additionally validates the three fields, then sets `uploading` and
  suspends on the upload call. -/
  | confirmStart (id : Nat) {st : CState} (it : BatchItem)
      (hmem : it ∈ st.items) (hid : it.id = id)
      (hstat : it.status = .ready) (hman : manualFilled it.data = true) :
      Step true st { st with
        items := updItem st.items id fun i => { i with status := .uploading } }
  /-- `handleConfirmUpload` success continuation (lines 373–379). A
  confirm continuation exists only for an item that went through
  `confirmStart` (which required `ready`), and the drain loop never
  begins an iteration on a `ready` item, so the confirmed item is not
  the loop's current one. -/
  | confirmOk (id : Nat) {st : CState} (it : BatchItem)
      (hmem : it ∈ st.items) (hid : it.id = id)
      (hstat : it.status = .uploading) (hnl : ¬ loopHolds st id) :
      Step true st { st with
        items := updItem st.items id fun i =>
          { i with status := .success, base64 := none, errorMessage := none,
                   data := { i.data with needsReview := false } } }
  /-- `handleConfirmUpload` failure continuation (lines 381–388): item
  becomes `error`, cached image kept. -/
  | confirmFail (id : Nat) (m : String) {st : CState} (it : BatchItem)
      (hmem : it ∈ st.items) (hid : it.id = id)
      (hstat : it.status = .uploading) (hnl : ¬ loopHolds st id) :
      Step true st { st with
        items := updItem st.items id fun i =>
          { i with status := .error, errorMessage := some (jsOr m "Erro ao enviar.") } }
  /-- `handleUpdateData` (line 327): inputs are enabled only when
  `allowEditing`; replaces the data record. -/
  | edit (id : Nat) (d : ExtractedData) {st : CState} (it : BatchItem)
      (hmem : it ∈ st.items) (hid : it.id = id)
      (hedit : allowEditing it.status = true) :
      Step false st { st with
        items := updItem st.items id fun i => { i with data := d } }
  /-- `handleRotate` (lines 331–340), rendered under `allowEditing`. -/
  | rotate (id : Nat) {st : CState} (it : BatchItem)
      (hmem : it ∈ st.items) (hid : it.id = id)
      (hedit : allowEditing it.status = true) :
      Step false st { st with
        items := updItem st.items id fun i =>
          { i with rotation := (i.rotation + 270) % 360 } }
  /-- `handleRetry` (line 423), rendered on `error` cards. -/
  | retry (id : Nat) {st : CState} (it : BatchItem)
      (hmem : it ∈ st.items) (hid : it.id = id)
      (hstat : it.status = .error) :
      Step false st { st with
        items := updItem st.items id fun i =>
          { i with status := .queued, errorMessage := none } }
  /-- `handleRemove` (line 317); the remove button is rendered only when
  the item is neither actively processing nor successful. -/
  | remove (id : Nat) {st : CState} (it : BatchItem)
      (hmem : it ∈ st.items) (hid : it.id = id)
      (hact : activeS it.status = false) (hsucc : ¬ it.status = .success) :
      Step false st { st with items := st.items.filter fun i => ¬ i.id = id }
  /-- `handleClearFinished` (line 391), rendered only while not running. -/
  | clearFinished {st : CState} (hrun : st.running = false) :
      Step false st { st with items := st.items.filter fun i => ¬ i.status = .success }
  /-- `handleClearQueue` (line 407), rendered only while not running. -/
  | clearQueue {st : CState} (hrun : st.running = false) :
      Step false st { st with items := st.items.filter fun i => i.status = .success }

/-- States reachable from the empty initial state by any interleaving of
the drain loop and all user command handlers. -/
inductive Reach : CState → Prop
  | init : Reach initState
  | tail {s t : CState} (b : Bool) : Reach s → Step b s t → Reach t

/-- States reachable without any `handleConfirmUpload` block. -/
inductive ReachNC : CState → Prop
  | init : ReachNC initState
  | tail {s t : CState} : ReachNC s → Step false s t → ReachNC t

/-! ## Invariants of the interleaving model -/

/-- Inductive invariant holding in every reachable state (confirm blocks
included): item ids are unique, a suspended loop implies `isRunning`, the
loop's current item exists and carries the status its suspension point
established, and successful items hold no cached image. -/
structure Inv (st : CState) : Prop where
  nodup : (st.items.map (fun i => i.id)).Nodup
  loopRun : ∀ id ph, st.loop = some (id, ph) → st.running = true
  loopItem : ∀ id ph, st.loop = some (id, ph) →
    ∃ it, it ∈ st.items ∧ it.id = id ∧ it.status = phaseStatus ph
  succClean : ∀ it ∈ st.items, it.status = .success → it.base64 = none

theorem self_mem_updItem {l : List BatchItem} {n : Nat} {f : BatchItem → BatchItem}
    {it : BatchItem} (hmem : it ∈ l) (hid : it.id = n) : f it ∈ updItem l n f := by
  have h := List.mem_map_of_mem (fun i => if i.id = n then f i else i) hmem
  simpa [updItem, hid] using h

theorem other_mem_updItem {l : List BatchItem} {n : Nat} {f : BatchItem → BatchItem}
    {it : BatchItem} (hmem : it ∈ l) (hid : ¬ it.id = n) : it ∈ updItem l n f := by
  have h := List.mem_map_of_mem (fun i => if i.id = n then f i else i) hmem
  simpa [updItem, hid] using h

theorem updItem_map_id (l : List BatchItem) (n : Nat) (f : BatchItem → BatchItem)
    (hf : ∀ it, (f it).id = it.id) :
    (updItem l n f).map (fun i => i.id) = l.map (fun i => i.id) := by
  unfold updItem
  rw [List.map_map]
  apply List.map_congr_left
  intro a _
  by_cases h : a.id = n
  · simp [h, hf]
  · simp [h]

theorem nodup_updItem {l : List BatchItem} {n : Nat} {f : BatchItem → BatchItem}
    (hf : ∀ it, (f it).id = it.id) (h : (l.map (fun i => i.id)).Nodup) :
    ((updItem l n f).map (fun i => i.id)).Nodup := by
  rw [updItem_map_id l n f hf]; exact h

theorem item_unique {l : List BatchItem} (hnd : (l.map (fun i => i.id)).Nodup)
    {a b : BatchItem} (ha : a ∈ l) (hb : b ∈ l) (h : a.id = b.id) : a = b :=
  List.inj_on_of_nodup_map hnd ha hb h

/-- In a state satisfying the invariant, any stored item carrying the
loop's current id has the status the suspension point established. -/
theorem loopCur_status {st : CState} (inv : Inv st) {n : Nat} {ph : LPhase}
    (hloop : st.loop = some (n, ph)) {it : BatchItem}
    (hmem : it ∈ st.items) (hid : it.id = n) : it.status = phaseStatus ph := by
  obtain ⟨w, hw, hwid, hws⟩ := inv.loopItem n ph hloop
  have he : it = w := item_unique inv.nodup hmem hw (by rw [hid, hwid])
  rw [he]; exact hws

theorem mem_updItem {l : List BatchItem} {n : Nat} {f : BatchItem → BatchItem}
    {it' : BatchItem} (h : it' ∈ updItem l n f) :
    ∃ it, it ∈ l ∧ it' = if it.id = n then f it else it := by
  obtain ⟨it, hmem, hfit⟩ := List.mem_map.mp h
  exact ⟨it, hmem, hfit.symm⟩

/-- The invariant is preserved by every atomic block. -/
theorem inv_step {b : Bool} {s t : CState} (inv : Inv s) (h : Step b s t) : Inv t := by
  cases h with
  | enqueue specs hrun hfresh =>
    refine ⟨?_, ?_, ?_, ?_⟩
    · show ((s.items ++ specs.map fun tr => newBatchItem tr.1 tr.2.1 tr.2.2).map
        (fun i => i.id)).Nodup
      rw [List.map_append, List.map_map]
      have he : ((fun i => i.id) ∘ fun tr : Nat × Bool × String =>
          newBatchItem tr.1 tr.2.1 tr.2.2) = fun tr : Nat × Bool × String => tr.1 := rfl
      rw [he]
      exact hfresh
    · intro id2 ph2 hl; exact inv.loopRun id2 ph2 hl
    · intro id2 ph2 hl
      obtain ⟨w, hw, hwid, hws⟩ := inv.loopItem id2 ph2 hl
      exact ⟨w, List.mem_append_left _ hw, hwid, hws⟩
    · intro it' hmem' hst'
      rcases List.mem_append.mp hmem' with hold | hnew
      · exact inv.succClean it' hold hst'
      · obtain ⟨tr, _, rfl⟩ := List.mem_map.mp hnew
        simp [newBatchItem] at hst'
  | startLoop hrun hloop =>
    refine ⟨inv.nodup, ?_, ?_, inv.succClean⟩
    · intro id2 ph2 hl; rfl
    · intro id2 ph2 hl
      exact inv.loopItem id2 ph2 hl
  | endLoop hrun hloop =>
    refine ⟨inv.nodup, ?_, ?_, inv.succClean⟩
    · intro id2 ph2 hl
      have h2 : s.loop = some (id2, ph2) := hl
      rw [hloop] at h2; cases h2
    · intro id2 ph2 hl
      have h2 : s.loop = some (id2, ph2) := hl
      rw [hloop] at h2; cases h2
  | iterBegin id it hrun hloop hmem hid hstat =>
    refine ⟨?_, ?_, ?_, ?_⟩
    · refine nodup_updItem ?_ inv.nodup; intro i; rfl
    · intro id2 ph2 _; exact hrun
    · intro id2 ph2 hl
      have h2 : (some (id, LPhase.imgWait) : Option (Nat × LPhase)) = some (id2, ph2) := hl
      injection h2 with h3
      injection h3 with h4 h5
      subst h4; subst h5
      exact ⟨_, self_mem_updItem hmem hid, hid, rfl⟩
    · intro it' hmem' hst'
      obtain ⟨w, hw, hweq⟩ := mem_updItem hmem'
      by_cases hc : w.id = id
      · rw [if_pos hc] at hweq; subst hweq
        simp at hst'
      · rw [if_neg hc] at hweq; subst hweq
        exact inv.succClean _ hw hst'
  | iterImgFail id m hloop =>
    refine ⟨?_, ?_, ?_, ?_⟩
    · refine nodup_updItem ?_ inv.nodup; intro i; rfl
    · intro id2 ph2 _; exact inv.loopRun _ _ hloop
    · intro id2 ph2 hl
      have h2 : (none : Option (Nat × LPhase)) = some (id2, ph2) := hl
      cases h2
    · intro it' hmem' hst'
      obtain ⟨w, hw, hweq⟩ := mem_updItem hmem'
      by_cases hc : w.id = id
      · rw [if_pos hc] at hweq; subst hweq
        simp [runCatch] at hst'
      · rw [if_neg hc] at hweq; subst hweq
        exact inv.succClean _ hw hst'
  | iterImgManual id proc it hloop hmem hid hman =>
    refine ⟨?_, ?_, ?_, ?_⟩
    · refine nodup_updItem ?_ inv.nodup; intro i; rfl
    · intro id2 ph2 _; exact inv.loopRun _ _ hloop
    · intro id2 ph2 hl
      have h2 : (some (id, LPhase.timerWait) : Option (Nat × LPhase)) = some (id2, ph2) := hl
      injection h2 with h3
      injection h3 with h4 h5
      subst h4; subst h5
      obtain ⟨w, hw, hwid, hws⟩ := inv.loopItem id .imgWait hloop
      exact ⟨_, self_mem_updItem hw hwid, hwid, hws⟩
    · intro it' hmem' hst'
      obtain ⟨w, hw, hweq⟩ := mem_updItem hmem'
      by_cases hc : w.id = id
      · rw [if_pos hc] at hweq; subst hweq
        have hsw : w.status = Status.success := hst'
        rw [loopCur_status inv hloop hw hc] at hsw
        simp [phaseStatus] at hsw
      · rw [if_neg hc] at hweq; subst hweq
        exact inv.succClean _ hw hst'
  | iterImgAI id proc it hloop hmem hid hman =>
    refine ⟨?_, ?_, ?_, ?_⟩
    · refine nodup_updItem ?_ inv.nodup; intro i; rfl
    · intro id2 ph2 _; exact inv.loopRun _ _ hloop
    · intro id2 ph2 hl
      have h2 : (some (id, LPhase.aiWait) : Option (Nat × LPhase)) = some (id2, ph2) := hl
      injection h2 with h3
      injection h3 with h4 h5
      subst h4; subst h5
      exact ⟨_, self_mem_updItem hmem hid, hid, rfl⟩
    · intro it' hmem' hst'
      obtain ⟨w, hw, hweq⟩ := mem_updItem hmem'
      by_cases hc : w.id = id
      · rw [if_pos hc] at hweq; subst hweq
        simp at hst'
      · rw [if_neg hc] at hweq; subst hweq
        exact inv.succClean _ hw hst'
  | iterTimerDone id hloop =>
    refine ⟨?_, ?_, ?_, ?_⟩
    · refine nodup_updItem ?_ inv.nodup; intro i; rfl
    · intro id2 ph2 _; exact inv.loopRun _ _ hloop
    · intro id2 ph2 hl
      have h2 : (some (id, LPhase.upWait) : Option (Nat × LPhase)) = some (id2, ph2) := hl
      injection h2 with h3
      injection h3 with h4 h5
      subst h4; subst h5
      obtain ⟨w, hw, hwid, hws⟩ := inv.loopItem id .timerWait hloop
      exact ⟨_, self_mem_updItem hw hwid, hwid, rfl⟩
    · intro it' hmem' hst'
      obtain ⟨w, hw, hweq⟩ := mem_updItem hmem'
      by_cases hc : w.id = id
      · rw [if_pos hc] at hweq; subst hweq
        simp at hst'
      · rw [if_neg hc] at hweq; subst hweq
        exact inv.succClean _ hw hst'
  | iterAIFail id m hloop =>
    refine ⟨?_, ?_, ?_, ?_⟩
    · refine nodup_updItem ?_ inv.nodup; intro i; rfl
    · intro id2 ph2 _; exact inv.loopRun _ _ hloop
    · intro id2 ph2 hl
      have h2 : (none : Option (Nat × LPhase)) = some (id2, ph2) := hl
      cases h2
    · intro it' hmem' hst'
      obtain ⟨w, hw, hweq⟩ := mem_updItem hmem'
      by_cases hc : w.id = id
      · rw [if_pos hc] at hweq; subst hweq
        simp [runCatch] at hst'
      · rw [if_neg hc] at hweq; subst hweq
        exact inv.succClean _ hw hst'
  | iterAIHold id d hloop hflag =>
    refine ⟨?_, ?_, ?_, ?_⟩
    · refine nodup_updItem ?_ inv.nodup; intro i; rfl
    · intro id2 ph2 _; exact inv.loopRun _ _ hloop
    · intro id2 ph2 hl
      have h2 : (none : Option (Nat × LPhase)) = some (id2, ph2) := hl
      cases h2
    · intro it' hmem' hst'
      obtain ⟨w, hw, hweq⟩ := mem_updItem hmem'
      by_cases hc : w.id = id
      · rw [if_pos hc] at hweq; subst hweq
        simp at hst'
      · rw [if_neg hc] at hweq; subst hweq
        exact inv.succClean _ hw hst'
  | iterAIPass id d hloop hflag =>
    refine ⟨?_, ?_, ?_, ?_⟩
    · refine nodup_updItem ?_ inv.nodup; intro i; rfl
    · intro id2 ph2 _; exact inv.loopRun _ _ hloop
    · intro id2 ph2 hl
      have h2 : (some (id, LPhase.upWait) : Option (Nat × LPhase)) = some (id2, ph2) := hl
      injection h2 with h3
      injection h3 with h4 h5
      subst h4; subst h5
      obtain ⟨w, hw, hwid, hws⟩ := inv.loopItem id .aiWait hloop
      exact ⟨_, self_mem_updItem hw hwid, hwid, rfl⟩
    · intro it' hmem' hst'
      obtain ⟨w, hw, hweq⟩ := mem_updItem hmem'
      by_cases hc : w.id = id
      · rw [if_pos hc] at hweq; subst hweq
        simp at hst'
      · rw [if_neg hc] at hweq; subst hweq
        exact inv.succClean _ hw hst'
  | iterUpOk id hloop =>
    refine ⟨?_, ?_, ?_, ?_⟩
    · refine nodup_updItem ?_ inv.nodup; intro i; rfl
    · intro id2 ph2 _; exact inv.loopRun _ _ hloop
    · intro id2 ph2 hl
      have h2 : (none : Option (Nat × LPhase)) = some (id2, ph2) := hl
      cases h2
    · intro it' hmem' hst'
      obtain ⟨w, hw, hweq⟩ := mem_updItem hmem'
      by_cases hc : w.id = id
      · rw [if_pos hc] at hweq; subst hweq; rfl
      · rw [if_neg hc] at hweq; subst hweq
        exact inv.succClean _ hw hst'
  | iterUpFail id m hloop =>
    refine ⟨?_, ?_, ?_, ?_⟩
    · refine nodup_updItem ?_ inv.nodup; intro i; rfl
    · intro id2 ph2 _; exact inv.loopRun _ _ hloop
    · intro id2 ph2 hl
      have h2 : (none : Option (Nat × LPhase)) = some (id2, ph2) := hl
      cases h2
    · intro it' hmem' hst'
      obtain ⟨w, hw, hweq⟩ := mem_updItem hmem'
      by_cases hc : w.id = id
      · rw [if_pos hc] at hweq; subst hweq
        simp [runCatch] at hst'
      · rw [if_neg hc] at hweq; subst hweq
        exact inv.succClean _ hw hst'
  | confirmStart id it hmem hid hstat hman =>
    refine ⟨?_, ?_, ?_, ?_⟩
    · refine nodup_updItem ?_ inv.nodup; intro i; rfl
    · intro id2 ph2 hl; exact inv.loopRun id2 ph2 hl
    · intro id2 ph2 hl
      obtain ⟨w, hw, hwid, hws⟩ := inv.loopItem id2 ph2 hl
      have hne : ¬ w.id = id := by
        intro hcon
        have he : w = it := item_unique inv.nodup hw hmem (by rw [hcon, hid])
        rw [he, hstat] at hws
        cases ph2 <;> simp [phaseStatus] at hws
      exact ⟨w, other_mem_updItem hw hne, hwid, hws⟩
    · intro it' hmem' hst'
      obtain ⟨w, hw, hweq⟩ := mem_updItem hmem'
      by_cases hc : w.id = id
      · rw [if_pos hc] at hweq; subst hweq
        simp at hst'
      · rw [if_neg hc] at hweq; subst hweq
        exact inv.succClean _ hw hst'
  | confirmOk id it hmem hid hstat hnl =>
    refine ⟨?_, ?_, ?_, ?_⟩
    · refine nodup_updItem ?_ inv.nodup; intro i; rfl
    · intro id2 ph2 hl; exact inv.loopRun id2 ph2 hl
    · intro id2 ph2 hl
      obtain ⟨w, hw, hwid, hws⟩ := inv.loopItem id2 ph2 hl
      have hne : ¬ w.id = id := by
        intro hcon
        have hs : s.loop = some (id2, ph2) := hl
        have hmm : id2 = id := by rw [← hwid, hcon]
        exact hnl ⟨ph2, by rw [← hmm]; exact hs⟩
      exact ⟨w, other_mem_updItem hw hne, hwid, hws⟩
    · intro it' hmem' hst'
      obtain ⟨w, hw, hweq⟩ := mem_updItem hmem'
      by_cases hc : w.id = id
      · rw [if_pos hc] at hweq; subst hweq; rfl
      · rw [if_neg hc] at hweq; subst hweq
        exact inv.succClean _ hw hst'
  | confirmFail id m it hmem hid hstat hnl =>
    refine ⟨?_, ?_, ?_, ?_⟩
    · refine nodup_updItem ?_ inv.nodup; intro i; rfl
    · intro id2 ph2 hl; exact inv.loopRun id2 ph2 hl
    · intro id2 ph2 hl
      obtain ⟨w, hw, hwid, hws⟩ := inv.loopItem id2 ph2 hl
      have hne : ¬ w.id = id := by
        intro hcon
        have hs : s.loop = some (id2, ph2) := hl
        have hmm : id2 = id := by rw [← hwid, hcon]
        exact hnl ⟨ph2, by rw [← hmm]; exact hs⟩
      exact ⟨w, other_mem_updItem hw hne, hwid, hws⟩
    · intro it' hmem' hst'
      obtain ⟨w, hw, hweq⟩ := mem_updItem hmem'
      by_cases hc : w.id = id
      · rw [if_pos hc] at hweq; subst hweq
        simp at hst'
      · rw [if_neg hc] at hweq; subst hweq
        exact inv.succClean _ hw hst'
  | edit id d it hmem hid hedit =>
    refine ⟨?_, ?_, ?_, ?_⟩
    · refine nodup_updItem ?_ inv.nodup; intro i; rfl
    · intro id2 ph2 hl; exact inv.loopRun id2 ph2 hl
    · intro id2 ph2 hl
      obtain ⟨w, hw, hwid, hws⟩ := inv.loopItem id2 ph2 hl
      by_cases hc : w.id = id
      · exact ⟨_, self_mem_updItem hw hc, hwid, hws⟩
      · exact ⟨w, other_mem_updItem hw hc, hwid, hws⟩
    · intro it' hmem' hst'
      obtain ⟨w, hw, hweq⟩ := mem_updItem hmem'
      by_cases hc : w.id = id
      · rw [if_pos hc] at hweq; subst hweq
        have hsw : w.status = Status.success := hst'
        show w.base64 = none
        exact inv.succClean w hw hsw
      · rw [if_neg hc] at hweq; subst hweq
        exact inv.succClean _ hw hst'
  | rotate id it hmem hid hedit =>
    refine ⟨?_, ?_, ?_, ?_⟩
    · refine nodup_updItem ?_ inv.nodup; intro i; rfl
    · intro id2 ph2 hl; exact inv.loopRun id2 ph2 hl
    · intro id2 ph2 hl
      obtain ⟨w, hw, hwid, hws⟩ := inv.loopItem id2 ph2 hl
      by_cases hc : w.id = id
      · exact ⟨_, self_mem_updItem hw hc, hwid, hws⟩
      · exact ⟨w, other_mem_updItem hw hc, hwid, hws⟩
    · intro it' hmem' hst'
      obtain ⟨w, hw, hweq⟩ := mem_updItem hmem'
      by_cases hc : w.id = id
      · rw [if_pos hc] at hweq; subst hweq
        have hsw : w.status = Status.success := hst'
        show w.base64 = none
        exact inv.succClean w hw hsw
      · rw [if_neg hc] at hweq; subst hweq
        exact inv.succClean _ hw hst'
  | retry id it hmem hid hstat =>
    refine ⟨?_, ?_, ?_, ?_⟩
    · refine nodup_updItem ?_ inv.nodup; intro i; rfl
    · intro id2 ph2 hl; exact inv.loopRun id2 ph2 hl
    · intro id2 ph2 hl
      obtain ⟨w, hw, hwid, hws⟩ := inv.loopItem id2 ph2 hl
      have hne : ¬ w.id = id := by
        intro hcon
        have he : w = it := item_unique inv.nodup hw hmem (by rw [hcon, hid])
        rw [he, hstat] at hws
        cases ph2 <;> simp [phaseStatus] at hws
      exact ⟨w, other_mem_updItem hw hne, hwid, hws⟩
    · intro it' hmem' hst'
      obtain ⟨w, hw, hweq⟩ := mem_updItem hmem'
      by_cases hc : w.id = id
      · rw [if_pos hc] at hweq; subst hweq
        simp at hst'
      · rw [if_neg hc] at hweq; subst hweq
        exact inv.succClean _ hw hst'
  | remove id it hmem hid hact hsucc =>
    refine ⟨?_, ?_, ?_, ?_⟩
    · exact List.Nodup.sublist (List.Sublist.map _ (List.filter_sublist _)) inv.nodup
    · intro id2 ph2 hl; exact inv.loopRun id2 ph2 hl
    · intro id2 ph2 hl
      obtain ⟨w, hw, hwid, hws⟩ := inv.loopItem id2 ph2 hl
      have hne : ¬ w.id = id := by
        intro hcon
        have he : w = it := item_unique inv.nodup hw hmem (by rw [hcon, hid])
        rw [he] at hws
        rw [hws] at hact
        cases ph2 <;> simp [phaseStatus, activeS] at hact
      refine ⟨w, ?_, hwid, hws⟩
      exact List.mem_filter.mpr ⟨hw, by simp [hne]⟩
    · intro it' hmem' hst'
      exact inv.succClean it' (List.mem_filter.mp hmem').1 hst'
  | clearFinished hrun =>
    refine ⟨?_, ?_, ?_, ?_⟩
    · exact List.Nodup.sublist (List.Sublist.map _ (List.filter_sublist _)) inv.nodup
    · intro id2 ph2 hl; exact inv.loopRun id2 ph2 hl
    · intro id2 ph2 hl
      have := inv.loopRun id2 ph2 hl
      rw [hrun] at this; cases this
    · intro it' hmem' hst'
      have h2 := (List.mem_filter.mp hmem').2
      simp [hst'] at h2
  | clearQueue hrun =>
    refine ⟨?_, ?_, ?_, ?_⟩
    · exact List.Nodup.sublist (List.Sublist.map _ (List.filter_sublist _)) inv.nodup
    · intro id2 ph2 hl; exact inv.loopRun id2 ph2 hl
    · intro id2 ph2 hl
      have := inv.loopRun id2 ph2 hl
      rw [hrun] at this; cases this
    · intro it' hmem' hst'
      exact inv.succClean it' (List.mem_filter.mp hmem').1 hst'

theorem inv_init : Inv initState := by
  refine ⟨?_, ?_, ?_, ?_⟩
  · simp [initState]
  · intro id ph hl; cases hl
  · intro id ph hl; cases hl
  · intro it hmem; simp [initState] at hmem

/-- Every reachable state satisfies the invariant. -/
theorem inv_reach {st : CState} (h : Reach st) : Inv st := by
  induction h with
  | init => exact inv_init
  | tail b _ hstep ih => exact inv_step ih hstep

/-- Exclusivity invariant for confirm-free executions: every actively
processing item is the one the loop currently holds. -/
def Excl (st : CState) : Prop :=
  ∀ it ∈ st.items, activeS it.status = true → loopHolds st it.id

/-- A confirm-free atomic block preserves exclusivity. -/
theorem excl_step {s t : CState} (hx : Excl s) (h : Step false s t) : Excl t := by
  cases h with
  | enqueue specs hrun hfresh =>
    intro it' hmem' hact
    rcases List.mem_append.mp hmem' with hold | hnew
    · exact hx it' hold hact
    · obtain ⟨tr, _, rfl⟩ := List.mem_map.mp hnew
      simp [newBatchItem, activeS] at hact
  | startLoop hrun hloop =>
    intro it' hmem' hact; exact hx it' hmem' hact
  | endLoop hrun hloop =>
    intro it' hmem' hact; exact hx it' hmem' hact
  | iterBegin id it hrun hloop hmem hid hstat =>
    intro it' hmem' hact
    obtain ⟨w, hw, hweq⟩ := mem_updItem hmem'
    by_cases hc : w.id = id
    · rw [if_pos hc] at hweq; subst hweq
      refine ⟨LPhase.imgWait, ?_⟩
      show some (id, LPhase.imgWait) = some (w.id, LPhase.imgWait)
      rw [hc]
    · rw [if_neg hc] at hweq; subst hweq
      obtain ⟨ph, hph⟩ := hx _ hw hact
      rw [hloop] at hph; cases hph
  | iterImgFail id m hloop =>
    intro it' hmem' hact
    obtain ⟨w, hw, hweq⟩ := mem_updItem hmem'
    by_cases hc : w.id = id
    · rw [if_pos hc] at hweq; subst hweq
      simp [runCatch, activeS] at hact
    · rw [if_neg hc] at hweq; subst hweq
      obtain ⟨ph, hph⟩ := hx _ hw hact
      rw [hloop] at hph
      injection hph with h3
      injection h3 with h4 h5
      exact absurd h4.symm hc
  | iterImgManual id proc it hloop hmem hid hman =>
    intro it' hmem' hact
    obtain ⟨w, hw, hweq⟩ := mem_updItem hmem'
    by_cases hc : w.id = id
    · rw [if_pos hc] at hweq; subst hweq
      refine ⟨LPhase.timerWait, ?_⟩
      show some (id, LPhase.timerWait) = some (w.id, LPhase.timerWait)
      rw [hc]
    · rw [if_neg hc] at hweq; subst hweq
      obtain ⟨ph, hph⟩ := hx _ hw hact
      rw [hloop] at hph
      injection hph with h3
      injection h3 with h4 h5
      exact absurd h4.symm hc
  | iterImgAI id proc it hloop hmem hid hman =>
    intro it' hmem' hact
    obtain ⟨w, hw, hweq⟩ := mem_updItem hmem'
    by_cases hc : w.id = id
    · rw [if_pos hc] at hweq; subst hweq
      refine ⟨LPhase.aiWait, ?_⟩
      show some (id, LPhase.aiWait) = some (w.id, LPhase.aiWait)
      rw [hc]
    · rw [if_neg hc] at hweq; subst hweq
      obtain ⟨ph, hph⟩ := hx _ hw hact
      rw [hloop] at hph
      injection hph with h3
      injection h3 with h4 h5
      exact absurd h4.symm hc
  | iterTimerDone id hloop =>
    intro it' hmem' hact
    obtain ⟨w, hw, hweq⟩ := mem_updItem hmem'
    by_cases hc : w.id = id
    · rw [if_pos hc] at hweq; subst hweq
      refine ⟨LPhase.upWait, ?_⟩
      show some (id, LPhase.upWait) = some (w.id, LPhase.upWait)
      rw [hc]
    · rw [if_neg hc] at hweq; subst hweq
      obtain ⟨ph, hph⟩ := hx _ hw hact
      rw [hloop] at hph
      injection hph with h3
      injection h3 with h4 h5
      exact absurd h4.symm hc
  | iterAIFail id m hloop =>
    intro it' hmem' hact
    obtain ⟨w, hw, hweq⟩ := mem_updItem hmem'
    by_cases hc : w.id = id
    · rw [if_pos hc] at hweq; subst hweq
      simp [runCatch, activeS] at hact
    · rw [if_neg hc] at hweq; subst hweq
      obtain ⟨ph, hph⟩ := hx _ hw hact
      rw [hloop] at hph
      injection hph with h3
      injection h3 with h4 h5
      exact absurd h4.symm hc
  | iterAIHold id d hloop hflag =>
    intro it' hmem' hact
    obtain ⟨w, hw, hweq⟩ := mem_updItem hmem'
    by_cases hc : w.id = id
    · rw [if_pos hc] at hweq; subst hweq
      simp [activeS] at hact
    · rw [if_neg hc] at hweq; subst hweq
      obtain ⟨ph, hph⟩ := hx _ hw hact
      rw [hloop] at hph
      injection hph with h3
      injection h3 with h4 h5
      exact absurd h4.symm hc
  | iterAIPass id d hloop hflag =>
    intro it' hmem' hact
    obtain ⟨w, hw, hweq⟩ := mem_updItem hmem'
    by_cases hc : w.id = id
    · rw [if_pos hc] at hweq; subst hweq
      refine ⟨LPhase.upWait, ?_⟩
      show some (id, LPhase.upWait) = some (w.id, LPhase.upWait)
      rw [hc]
    · rw [if_neg hc] at hweq; subst hweq
      obtain ⟨ph, hph⟩ := hx _ hw hact
      rw [hloop] at hph
      injection hph with h3
      injection h3 with h4 h5
      exact absurd h4.symm hc
  | iterUpOk id hloop =>
    intro it' hmem' hact
    obtain ⟨w, hw, hweq⟩ := mem_updItem hmem'
    by_cases hc : w.id = id
    · rw [if_pos hc] at hweq; subst hweq
      simp [activeS] at hact
    · rw [if_neg hc] at hweq; subst hweq
      obtain ⟨ph, hph⟩ := hx _ hw hact
      rw [hloop] at hph
      injection hph with h3
      injection h3 with h4 h5
      exact absurd h4.symm hc
  | iterUpFail id m hloop =>
    intro it' hmem' hact
    obtain ⟨w, hw, hweq⟩ := mem_updItem hmem'
    by_cases hc : w.id = id
    · rw [if_pos hc] at hweq; subst hweq
      simp [runCatch, activeS] at hact
    · rw [if_neg hc] at hweq; subst hweq
      obtain ⟨ph, hph⟩ := hx _ hw hact
      rw [hloop] at hph
      injection hph with h3
      injection h3 with h4 h5
      exact absurd h4.symm hc
  | edit id d it hmem hid hedit =>
    intro it' hmem' hact
    obtain ⟨w, hw, hweq⟩ := mem_updItem hmem'
    by_cases hc : w.id = id
    · rw [if_pos hc] at hweq; subst hweq
      exact hx w hw hact
    · rw [if_neg hc] at hweq; subst hweq
      exact hx _ hw hact
  | rotate id it hmem hid hedit =>
    intro it' hmem' hact
    obtain ⟨w, hw, hweq⟩ := mem_updItem hmem'
    by_cases hc : w.id = id
    · rw [if_pos hc] at hweq; subst hweq
      exact hx w hw hact
    · rw [if_neg hc] at hweq; subst hweq
      exact hx _ hw hact
  | retry id it hmem hid hstat =>
    intro it' hmem' hact
    obtain ⟨w, hw, hweq⟩ := mem_updItem hmem'
    by_cases hc : w.id = id
    · rw [if_pos hc] at hweq; subst hweq
      simp [activeS] at hact
    · rw [if_neg hc] at hweq; subst hweq
      exact hx _ hw hact
  | remove id it hmem hid hact2 hsucc =>
    intro it' hmem' hact
    exact hx _ (List.mem_filter.mp hmem').1 hact
  | clearFinished hrun =>
    intro it' hmem' hact
    exact hx _ (List.mem_filter.mp hmem').1 hact
  | clearQueue hrun =>
    intro it' hmem' hact
    exact hx _ (List.mem_filter.mp hmem').1 hact

/-- Every confirm-free-reachable state satisfies both invariants. -/
theorem inv_excl_reachNC {st : CState} (h : ReachNC st) : Inv st ∧ Excl st := by
  induction h with
  | init =>
    refine ⟨inv_init, ?_⟩
    intro it hmem; simp [initState] at hmem
  | tail _ hstep ih => exact ⟨inv_step ih.1 hstep, excl_step ih.2 hstep⟩

/-! ## Facts about the resize computation -/

/-- `jsRound num den` is the best integer approximation of `num/den`
from below/above within half a denominator (`den > 0`). -/
theorem jsRound_bounds (num den : Nat) (hden : 0 < den) :
    2 * den * jsRound num den ≤ 2 * num + den ∧
    2 * num ≤ 2 * den * jsRound num den + den := by
  unfold jsRound
  have hpos : 0 < 2 * den := by omega
  have heq := Nat.div_add_mod (2 * num + den) (2 * den)
  have hmod := Nat.mod_lt (2 * num + den) hpos
  generalize hq : (2 * num + den) / (2 * den) = q at heq ⊢
  generalize hr : (2 * num + den) % (2 * den) = r at heq hmod
  constructor
  · linarith
  · linarith

/-- The scaled height never exceeds the source height (no upscaling). -/
theorem scaled_h_le (w h : Nat) (hw : MAX_WIDTH < w) :
    jsRound (h * MAX_WIDTH) w ≤ h := by
  by_contra hcon
  push_neg at hcon
  have hb := (jsRound_bounds (h * MAX_WIDTH) w (by omega)).1
  have h1 : h + 1 ≤ jsRound (h * MAX_WIDTH) w := hcon
  have h2 : 2 * w * (h + 1) ≤ 2 * w * jsRound (h * MAX_WIDTH) w :=
    Nat.mul_le_mul_left _ h1
  have h3 : 2 * w * (h + 1) ≤ 2 * (h * MAX_WIDTH) + w := le_trans h2 hb
  have hM : MAX_WIDTH = 1280 := rfl
  rw [hM] at h3 hw
  nlinarith [h3, hw]

/-- `outDims` — the canvas dimensions at rational precision (swap when
sideways), used to state the no-crop property. -/
def outDims (w h : ℚ) (rot : Nat) : ℚ × ℚ :=
  if rot = 90 ∨ rot = 270 then (h, w) else (w, h)

/-! ## Claim theorems -/

/-- **C5, counterexample.** The claim says every normalized output has
its larger dimension ≤ 1280. A 600 × 2000 source (rotation 0) is left
at 600 × 2000 — the resize branch only fires on the width — so the
larger output dimension is 2000 > 1280. -/
theorem c5_resize_bound_counterexample :
    ¬ (max (processDims 600 2000 0).1 (processDims 600 2000 0).2 ≤ MAX_WIDTH) := by
  decide

/-- **C5, amended.** `processImage` never upscales and, when it scales,
preserves the aspect ratio up to rounding (within half a pixel) and pins
the output width to exactly 1280; but the 1280 bound is enforced only
through the width: any input with `width ≤ 1280` keeps its original
dimensions even when its height exceeds 1280. -/
theorem c5_resize_bound_amended (w h : Nat) :
    (scaledDims w h).1 ≤ w ∧ (scaledDims w h).2 ≤ h ∧
    (MAX_WIDTH < w → (scaledDims w h).1 = MAX_WIDTH ∧
      2 * w * (scaledDims w h).2 ≤ 2 * (h * MAX_WIDTH) + w ∧
      2 * (h * MAX_WIDTH) ≤ 2 * w * (scaledDims w h).2 + w) ∧
    (w ≤ MAX_WIDTH → scaledDims w h = (w, h)) := by
  unfold scaledDims
  by_cases hw : MAX_WIDTH < w
  · have hcond : w > MAX_WIDTH ∨ h > MAX_WIDTH := Or.inl hw
    rw [if_pos hcond, if_pos hw]
    refine ⟨le_of_lt hw, scaled_h_le w h hw, ?_, ?_⟩
    · intro _
      exact ⟨rfl, (jsRound_bounds (h * MAX_WIDTH) w (by omega)).1,
             (jsRound_bounds (h * MAX_WIDTH) w (by omega)).2⟩
    · intro hle; omega
  · by_cases hh : MAX_WIDTH < h
    · have hcond : w > MAX_WIDTH ∨ h > MAX_WIDTH := Or.inr hh
      rw [if_pos hcond, if_neg hw]
      exact ⟨le_refl w, le_refl h, fun hc => absurd hc hw, fun _ => rfl⟩
    · have hcond : ¬ (w > MAX_WIDTH ∨ h > MAX_WIDTH) := by
        push_neg; exact ⟨not_lt.mp hw, not_lt.mp hh⟩
      rw [if_neg hcond]
      exact ⟨le_refl w, le_refl h, fun hc => absurd hc hw, fun _ => rfl⟩

/-- Witness for the amended C5 at a concrete scaling input (2000 × 500
scales to 1280 × 320) and a concrete pass-through input. -/
theorem c5_resize_bound_amended_witness :
    ((scaledDims 2000 500).1 ≤ 2000 ∧ (scaledDims 2000 500).2 ≤ 500 ∧
      (MAX_WIDTH < 2000 → (scaledDims 2000 500).1 = MAX_WIDTH ∧
        2 * 2000 * (scaledDims 2000 500).2 ≤ 2 * (500 * MAX_WIDTH) + 2000 ∧
        2 * (500 * MAX_WIDTH) ≤ 2 * 2000 * (scaledDims 2000 500).2 + 2000) ∧
      (2000 ≤ MAX_WIDTH → scaledDims 2000 500 = (2000, 500))) ∧
    (600 ≤ MAX_WIDTH → scaledDims 600 2000 = (600, 2000)) :=
  ⟨c5_resize_bound_amended 2000 500, (c5_resize_bound_amended 600 2000).2.2.2⟩

/-- **C6.** For the four allowed rotation values, the output canvas is
`(h', w')` when the rotation is 90° or 270° and `(w', h')` otherwise
(where `(w', h')` are the possibly-downscaled source dimensions); an
800 × 600 source with rotation 90 yields a 600 × 800 canvas; and no
content is cropped: every source point lands inside the canvas under the
center-rotation draw transform. -/
theorem c6_rotation_correct (rot : Nat)
    (hrot : rot = 0 ∨ rot = 90 ∨ rot = 180 ∨ rot = 270) :
    (∀ w h : Nat, (rot = 90 ∨ rot = 270) →
      processDims w h rot = ((scaledDims w h).2, (scaledDims w h).1)) ∧
    (∀ w h : Nat, (rot = 0 ∨ rot = 180) → processDims w h rot = scaledDims w h) ∧
    processDims 800 600 90 = (600, 800) ∧
    (∀ w h x y : ℚ, 0 ≤ x → x ≤ w → 0 ≤ y → y ≤ h →
      0 ≤ (drawMap w h (outDims w h rot).1 (outDims w h rot).2 rot x y).1 ∧
      (drawMap w h (outDims w h rot).1 (outDims w h rot).2 rot x y).1 ≤ (outDims w h rot).1 ∧
      0 ≤ (drawMap w h (outDims w h rot).1 (outDims w h rot).2 rot x y).2 ∧
      (drawMap w h (outDims w h rot).1 (outDims w h rot).2 rot x y).2 ≤ (outDims w h rot).2) := by
  have hex : processDims 800 600 90 = (600, 800) := by decide
  rcases hrot with rfl | rfl | rfl | rfl
  · refine ⟨?_, ?_, hex, ?_⟩
    · intro w h hc; rcases hc with hc | hc <;> cases hc
    · intro w h _; simp [processDims]
    · intro w h x y hx1 hx2 hy1 hy2
      simp only [drawMap, outDims, cosd, sind]
      norm_num
      constructor <;> [skip; constructor] <;> [skip; skip; constructor] <;> linarith
  · refine ⟨?_, ?_, hex, ?_⟩
    · intro w h _; simp [processDims]
    · intro w h hc; rcases hc with hc | hc <;> cases hc
    · intro w h x y hx1 hx2 hy1 hy2
      simp only [drawMap, outDims, cosd, sind]
      norm_num
      constructor <;> [skip; constructor] <;> [skip; skip; constructor] <;> linarith
  · refine ⟨?_, ?_, hex, ?_⟩
    · intro w h hc; rcases hc with hc | hc <;> cases hc
    · intro w h _; simp [processDims]
    · intro w h x y hx1 hx2 hy1 hy2
      simp only [drawMap, outDims, cosd, sind]
      norm_num
      constructor <;> [skip; constructor] <;> [skip; skip; constructor] <;> linarith
  · refine ⟨?_, ?_, hex, ?_⟩
    · intro w h _; simp [processDims]
    · intro w h hc; rcases hc with hc | hc <;> cases hc
    · intro w h x y hx1 hx2 hy1 hy2
      simp only [drawMap, outDims, cosd, sind]
      norm_num
      constructor <;> [skip; constructor] <;> [skip; skip; constructor] <;> linarith

/-- Witness for C6 at rotation 90, an 800 × 600 source and the source
point (10, 20): the canvas is 600 × 800 and the point maps inside it. -/
theorem c6_rotation_correct_witness :
    processDims 800 600 90 = (600, 800) ∧
    (0 ≤ (drawMap 800 600 (outDims 800 600 90).1 (outDims 800 600 90).2 90 10 20).1 ∧
     (drawMap 800 600 (outDims 800 600 90).1 (outDims 800 600 90).2 90 10 20).1 ≤
       (outDims 800 600 90).1) := by
  have h := c6_rotation_correct 90 (Or.inr (Or.inl rfl))
  have h4 := h.2.2.2 800 600 10 20 (by norm_num) (by norm_num) (by norm_num) (by norm_num)
  exact ⟨h.2.2.1, h4.1, h4.2.1⟩

/-- **C10.** Every item enqueued by `handleFileSelect` starts with
rotation 270 (not 0), so by default normalization bakes a 270° rotation
and swaps the output dimensions relative to the (possibly downscaled)
source. -/
theorem c10_default_rotation :
    (∀ (id : Nat) (isPdf : Bool) (url : String),
      (newBatchItem id isPdf url).rotation = 270 ∧ (newBatchItem id isPdf url).rotation ≠ 0) ∧
    (∀ w h : Nat, processDims w h 270 = ((scaledDims w h).2, (scaledDims w h).1)) := by
  constructor
  · intro id isPdf url
    refine ⟨rfl, ?_⟩
    show (270 : Nat) ≠ 0
    omega
  · intro w h
    simp [processDims]

/-! ## Facts about the extraction retry loop (for C7) -/

/-- At most `maxRetries - 1 - attempt` backoff delays are ever slept. -/
theorem extractLoop_delays_le (outs : Nat → AttemptOutcome) :
    ∀ fuel attempt, (extractLoop outs attempt fuel).1.length ≤ maxRetries - 1 - attempt := by
  intro fuel
  induction fuel with
  | zero => intro attempt; simp [extractLoop]
  | succ n ih =>
    intro attempt
    cases houts : outs attempt with
    | ok d => simp [extractLoop, houts]
    | fail es st cd =>
      simp only [extractLoop, houts]
      by_cases hcond : ((isQuotaError es st cd || isServerOverload es st cd) &&
          decide (attempt < maxRetries - 1)) = true
      · rw [if_pos hcond]
        simp only [List.length_cons]
        have h2 : attempt < maxRetries - 1 := by
          have hb := (Bool.and_eq_true _ _).mp hcond
          exact of_decide_eq_true hb.2
        have h3 := ih (attempt + 1)
        simp only [maxRetries] at h2 h3 ⊢
        omega
      · rw [if_neg hcond]
        by_cases hq : isQuotaError es st cd = true
        · rw [if_pos hq]; simp
        · rw [if_neg hq]; simp

/-- The `i`-th backoff delay slept is `2^(attempt + i + 1) · 2000` ms. -/
theorem extractLoop_delay_val (outs : Nat → AttemptOutcome) :
    ∀ fuel attempt i, i < (extractLoop outs attempt fuel).1.length →
    (extractLoop outs attempt fuel).1.getD i 0 = 2 ^ (attempt + i + 1) * 2000 := by
  intro fuel
  induction fuel with
  | zero => intro attempt i h; simp [extractLoop] at h
  | succ n ih =>
    intro attempt i h
    cases houts : outs attempt with
    | ok d => simp [extractLoop, houts] at h
    | fail es st cd =>
      simp only [extractLoop, houts] at h ⊢
      by_cases hcond : ((isQuotaError es st cd || isServerOverload es st cd) &&
          decide (attempt < maxRetries - 1)) = true
      · rw [if_pos hcond] at h ⊢
        cases i with
        | zero => simp
        | succ j =>
          simp only [List.getD_cons_succ, List.length_cons] at h ⊢
          have hv := ih (attempt + 1) j (by omega)
          rw [hv]
          congr 2
          omega
      · rw [if_neg hcond] at h ⊢
        by_cases hq : isQuotaError es st cd = true
        · rw [if_pos hq] at h; simp at h
        · rw [if_neg hq] at h; simp at h

/-- A successful first attempt returns immediately with no delays. -/
theorem extract_first_ok (outs : Nat → AttemptOutcome) (d : ExtractedData)
    (h : outs 0 = .ok d) : extractModel outs = ([], .ok d) := by
  simp [extractModel, maxRetries, extractLoop, h]

/-- A first attempt failing with neither a 429-class nor a 503-class
signal is not retried: the generic failure is thrown at once. -/
theorem extract_first_other (outs : Nat → AttemptOutcome) (es : String)
    (st cd : Option Nat) (h : outs 0 = .fail es st cd)
    (hq : isQuotaError es st cd = false) (hs : isServerOverload es st cd = false) :
    extractModel outs = ([], .error extractFailMsg) := by
  simp [extractModel, maxRetries, extractLoop, h, hq, hs]

/-- Four consecutive 429-class failures: three backoffs (4 s, 8 s, 16 s)
and then the distinct quota-exceeded error. -/
theorem extract_quota_exhaust (outs : Nat → AttemptOutcome)
    (h : ∀ i, i < maxRetries →
      ∃ es st cd, outs i = .fail es st cd ∧ isQuotaError es st cd = true) :
    extractModel outs = ([4000, 8000, 16000], .error quotaMsg) := by
  obtain ⟨e0, s0, c0, h0, hq0⟩ := h 0 (by norm_num [maxRetries])
  obtain ⟨e1, s1, c1, h1, hq1⟩ := h 1 (by norm_num [maxRetries])
  obtain ⟨e2, s2, c2, h2, hq2⟩ := h 2 (by norm_num [maxRetries])
  obtain ⟨e3, s3, c3, h3, hq3⟩ := h 3 (by norm_num [maxRetries])
  simp [extractModel, maxRetries, extractLoop, h0, h1, h2, h3, hq0, hq1, hq2, hq3]

/-- Four consecutive 503-class failures: three backoffs and then the
*generic* extraction failure — not a distinct service-unavailable error. -/
theorem extract_overload_exhaust (outs : Nat → AttemptOutcome)
    (h : ∀ i, i < maxRetries → ∃ es st cd, outs i = .fail es st cd ∧
      isQuotaError es st cd = false ∧ isServerOverload es st cd = true) :
    extractModel outs = ([4000, 8000, 16000], .error extractFailMsg) := by
  obtain ⟨e0, s0, c0, h0, hq0, hs0⟩ := h 0 (by norm_num [maxRetries])
  obtain ⟨e1, s1, c1, h1, hq1, hs1⟩ := h 1 (by norm_num [maxRetries])
  obtain ⟨e2, s2, c2, h2, hq2, hs2⟩ := h 2 (by norm_num [maxRetries])
  obtain ⟨e3, s3, c3, h3, hq3, hs3⟩ := h 3 (by norm_num [maxRetries])
  simp [extractModel, maxRetries, extractLoop, h0, h1, h2, h3, hq0, hq1, hq2, hq3,
        hs0, hs1, hs2, hs3]

/-- A trace in which every attempt fails with a pure 503-class signal. -/
def overloadTrace : Nat → AttemptOutcome :=
  fun _ => .fail "ApiError: 503 Service Unavailable" (some 503) none

/-- A trace in which the first attempt fails with a non-retryable error. -/
def otherTrace : Nat → AttemptOutcome :=
  fun _ => .fail "SyntaxError: Unexpected token" none none

/-- **C7, counterexample.** The claim says an exhausted 503-class failure
is surfaced as a distinct service-unavailable error. In the code the
final throw distinguishes only the quota class: a run of four 503
failures ends with exactly the same generic message as a non-retryable
failure, and that message is not the quota message either. -/
theorem c7_retry_policy_counterexample :
    (extractModel overloadTrace).2 = .error extractFailMsg ∧
    (extractModel otherTrace).2 = .error extractFailMsg ∧
    extractFailMsg ≠ quotaMsg := by
  refine ⟨?_, ?_, ?_⟩
  · rfl
  · rfl
  · decide

/-- **C7, amended.** `extractDataFromImage` retries only on 429-class or
503-class signals (detected from the stringified error or the numeric
status/code fields), up to 4 attempts total, sleeping `2^k · 2000` ms
before the `k`-th retry (4 s, 8 s, 16 s); on exhaustion a 429-class
failure yields the distinct quota-exceeded message, while a 503-class
failure yields the *same generic* extraction-failure message as any
other failure; nothing is retried beyond the bound. -/
theorem c7_retry_policy_amended :
    (∀ outs d, outs 0 = .ok d → extractModel outs = ([], .ok d)) ∧
    (∀ outs es st cd, outs 0 = .fail es st cd → isQuotaError es st cd = false →
      isServerOverload es st cd = false → extractModel outs = ([], .error extractFailMsg)) ∧
    (∀ outs, (extractModel outs).1.length ≤ maxRetries - 1) ∧
    (∀ outs i, i < (extractModel outs).1.length →
      (extractModel outs).1.getD i 0 = 2 ^ (i + 1) * 2000) ∧
    (∀ outs, (∀ i, i < maxRetries →
        ∃ es st cd, outs i = .fail es st cd ∧ isQuotaError es st cd = true) →
      extractModel outs = ([4000, 8000, 16000], .error quotaMsg)) ∧
    (∀ outs, (∀ i, i < maxRetries → ∃ es st cd, outs i = .fail es st cd ∧
        isQuotaError es st cd = false ∧ isServerOverload es st cd = true) →
      extractModel outs = ([4000, 8000, 16000], .error extractFailMsg)) := by
  refine ⟨extract_first_ok, extract_first_other, ?_, ?_, extract_quota_exhaust,
          extract_overload_exhaust⟩
  · intro outs
    have h := extractLoop_delays_le outs maxRetries 0
    simpa [extractModel] using h
  · intro outs i hi
    have h := extractLoop_delay_val outs maxRetries 0 i (by simpa [extractModel] using hi)
    simpa [extractModel] using h

/-- Witness for the amended C7 at concrete traces: an immediately
successful trace, and the all-503 trace. -/
theorem c7_retry_policy_amended_witness :
    extractModel (fun _ => .ok ⟨"27681", "01/01/2025", "1", false⟩) =
      ([], .ok ⟨"27681", "01/01/2025", "1", false⟩) ∧
    extractModel overloadTrace = ([4000, 8000, 16000], .error extractFailMsg) := by
  have h := c7_retry_policy_amended
  refine ⟨h.1 _ _ rfl, h.2.2.2.2.2 overloadTrace ?_⟩
  intro i _
  exact ⟨"ApiError: 503 Service Unavailable", some 503, none, rfl, by decide, by decide⟩

/-! ## Facts about one drain-loop iteration -/

theorem uploadPhase_ai (env : IterEnv) (it : BatchItem) (d : ExtractedData)
    (proc : ProcessedLite) (ai : Bool) : (uploadPhase env it d proc ai).invokedAI = ai := by
  unfold uploadPhase
  cases env.uploadResult <;> rfl

theorem uploadPhase_attempt (env : IterEnv) (it : BatchItem) (d : ExtractedData)
    (proc : ProcessedLite) (ai : Bool) :
    (uploadPhase env it d proc ai).uploadAttempt = some (buildPayload d proc.base64) := by
  unfold uploadPhase
  cases env.uploadResult <;> rfl

theorem uploadPhase_fail (env : IterEnv) (it : BatchItem) (d : ExtractedData)
    (proc : ProcessedLite) (ai : Bool) (m : String) (h : env.uploadResult = .error m) :
    (uploadPhase env it d proc ai).item = runCatch it m := by
  simp [uploadPhase, h]

theorem runCatch_quota (it : BatchItem) (m : String) (hm : ¬ m = "")
    (hq : (jsIncludes (jsToLower m) "cota" || jsIncludes (jsToLower m) "quota") = true) :
    runCatch it m =
      { it with status := .error, errorMessage := some quotaFallbackMsg, base64 := none } := by
  simp [runCatch, hm, hq]

theorem runCatch_other (it : BatchItem) (m : String) (hm : ¬ m = "")
    (hq : (jsIncludes (jsToLower m) "cota" || jsIncludes (jsToLower m) "quota") = false) :
    runCatch it m =
      { it with status := .error, errorMessage := some m, base64 := none } := by
  simp [runCatch, hm, hq]

/-- Sample records used to evaluate the models at concrete inputs. -/
def emptyData : ExtractedData := { numeroDoc := "", dataEmissao := "", serie := "" }

/-- A clean extraction result (all fields present, no review flag). -/
def cleanData : ExtractedData := { numeroDoc := "123", dataEmissao := "01/01/2025", serie := "1" }

/-- An extraction result flagged for human review. -/
def flaggedData : ExtractedData :=
  { numeroDoc := "123", dataEmissao := "01/01/2025", serie := "1", needsReview := true }

/-- A freshly selected image item with empty data. -/
def sampleItem (n : Nat) : BatchItem :=
  { id := n, fileIsPdf := false, previewUrl := some "blob:x", base64 := none,
    rotation := 270, data := emptyData, status := .queued, errorMessage := none }

/-- A processed-image result. -/
def sampleProc : ProcessedLite := { base64 := "b64", previewUrl := "data:b64" }

/-! ## C1 — quota fallback -/

/-- Iteration environments for the C1 run: the first item's extraction
fails with the quota-classified message thrown by the extraction client;
the second item's extraction succeeds. -/
def c1Envs : Nat → IterEnv := fun n =>
  if n = 0 then
    { imageResult := .ok sampleProc, extractResult := .error quotaMsg,
      uploadResult := .ok () }
  else
    { imageResult := .ok sampleProc, extractResult := .ok cleanData,
      uploadResult := .ok () }

/-- **C1, counterexample.** The claim says that after a quota failure is
recorded, every subsequently processed queued item skips extraction. In
a two-item run where item 0 fails with the quota message (and is indeed
classified as a quota failure: its `errorMessage` becomes the
manual-fill text), item 1 still invokes the extraction client
(`invokedAI = true`): there is no date-stamped persisted flag anywhere
in the controller. -/
theorem c1_quota_fallback_counterexample :
    ((runQueue [sampleItem 0, sampleItem 1] c1Envs).map fun r =>
      (r.item.status, r.item.errorMessage, r.invokedAI)) =
    [(.error, some quotaFallbackMsg, true), (.success, none, true)] := by
  rfl

/-- **C1, amended.** A quota-classified extraction failure marks only
the failing item: status `error`, message "Cota Excedida. Preencha
Manualmente.", cached image cleared. No persisted flag exists, and every
item is processed independently: any item whose required fields are not
all filled invokes extraction, regardless of earlier quota failures. -/
theorem c1_quota_fallback_amended (it : BatchItem) (env : IterEnv)
    (proc : ProcessedLite) (m : String)
    (himg : env.imageResult = .ok proc)
    (hman : manualFilled it.data = false)
    (hext : env.extractResult = .error m)
    (hm : ¬ m = "")
    (hq : (jsIncludes (jsToLower m) "cota" || jsIncludes (jsToLower m) "quota") = true) :
    (processOne env it).item.status = .error ∧
    (processOne env it).item.errorMessage = some quotaFallbackMsg ∧
    (processOne env it).item.base64 = none ∧
    (processOne env it).invokedAI = true ∧
    (∀ (it2 : BatchItem) (env2 : IterEnv) (proc2 : ProcessedLite),
      manualFilled it2.data = false → env2.imageResult = .ok proc2 →
      (processOne env2 it2).invokedAI = true) := by
  refine ⟨?_, ?_, ?_, ?_, ?_⟩
  · simp [processOne, himg, hman, hext, runCatch, hm, hq]
  · simp [processOne, himg, hman, hext, runCatch, hm, hq]
  · simp [processOne, himg, hman, hext, runCatch, hm, hq]
  · simp [processOne, himg, hman, hext]
  · intro it2 env2 proc2 hman2 himg2
    cases hext2 : env2.extractResult with
    | error m2 => simp [processOne, himg2, hman2, hext2]
    | ok d2 =>
      by_cases hf : flagged d2 = true
      · simp [processOne, himg2, hman2, hext2, hf]
      · simp [processOne, himg2, hman2, hext2, hf, uploadPhase_ai]

/-- Witness for the amended C1 at the concrete quota run of the
counterexample's first item. -/
theorem c1_quota_fallback_amended_witness :
    (processOne (c1Envs 0) (sampleItem 0)).item.status = .error ∧
    (processOne (c1Envs 0) (sampleItem 0)).item.errorMessage = some quotaFallbackMsg ∧
    (processOne (c1Envs 0) (sampleItem 0)).item.base64 = none ∧
    (processOne (c1Envs 0) (sampleItem 0)).invokedAI = true := by
  have h := c1_quota_fallback_amended (sampleItem 0) (c1Envs 0) sampleProc quotaMsg
    rfl (by decide) rfl (by decide) (by decide)
  exact ⟨h.1, h.2.1, h.2.2.1, h.2.2.2.1⟩

/-! ## C2 — upload failure inside the drain loop -/

/-- Environment of a run whose upload fails after a clean extraction. -/
def c2Env : IterEnv :=
  { imageResult := .ok sampleProc, extractResult := .ok cleanData,
    uploadResult := .error "Upload failed: Internal Server Error" }

/-- **C2, counterexample.** The claim says an upload failure in the
drain loop reverts the item to `ready` with its cached image intact. In
the code the loop's single `catch` block handles upload failures too:
the item becomes `error` (not `ready`) and `base64` is cleared. -/
theorem c2_upload_failure_counterexample :
    (processOne c2Env (sampleItem 0)).item.status = .error ∧
    ¬ (processOne c2Env (sampleItem 0)).item.status = .ready ∧
    (processOne c2Env (sampleItem 0)).item.base64 = none := by
  refine ⟨rfl, by decide, rfl⟩

/-- **C2, amended.** After an upload failure inside the automatic drain
loop the item is set to `error` (not `ready`) and its cached encoded
image is cleared; its extracted fields do remain intact, and since a
clean extraction fills all three required fields, a subsequent retry
skips extraction (though it must re-run image normalization). The
confirm path, by contrast, keeps `base64` on failure. -/
theorem c2_upload_failure_amended (it : BatchItem) (env : IterEnv)
    (proc : ProcessedLite) (d : ExtractedData) (m : String)
    (himg : env.imageResult = .ok proc)
    (hman : manualFilled it.data = false)
    (hext : env.extractResult = .ok d)
    (hflag : flagged d = false)
    (hup : env.uploadResult = .error m)
    (hm : ¬ m = "")
    (hq : (jsIncludes (jsToLower m) "cota" || jsIncludes (jsToLower m) "quota") = false) :
    (processOne env it).item.status = .error ∧
    (processOne env it).item.errorMessage = some m ∧
    (processOne env it).item.base64 = none ∧
    (processOne env it).item.data = d ∧
    manualFilled d = true ∧
    (∀ env2 : IterEnv, (processOne env2 { it with data := d, status := .queued }).invokedAI = false) := by
  have hmf : manualFilled d = true := by
    simp [flagged] at hflag
    simp [manualFilled]
    tauto
  refine ⟨?_, ?_, ?_, ?_, hmf, ?_⟩
  · simp [processOne, himg, hman, hext, hflag, uploadPhase, hup, runCatch, hm, hq]
  · simp [processOne, himg, hman, hext, hflag, uploadPhase, hup, runCatch, hm, hq]
  · simp [processOne, himg, hman, hext, hflag, uploadPhase, hup, runCatch, hm, hq]
  · simp [processOne, himg, hman, hext, hflag, uploadPhase, hup, runCatch, hm, hq]
  · intro env2
    cases himg2 : env2.imageResult with
    | error m2 => simp [processOne, himg2]
    | ok proc2 => simp [processOne, himg2, hmf, uploadPhase_ai]

/-- Witness for the amended C2 at the concrete failing-upload run. -/
theorem c2_upload_failure_amended_witness :
    (processOne c2Env (sampleItem 0)).item.status = .error ∧
    (processOne c2Env (sampleItem 0)).item.errorMessage =
      some "Upload failed: Internal Server Error" ∧
    (processOne c2Env (sampleItem 0)).item.data = cleanData := by
  have h := c2_upload_failure_amended (sampleItem 0) c2Env sampleProc cleanData
    "Upload failed: Internal Server Error" rfl (by decide) rfl (by decide) rfl
    (by decide) (by decide)
  exact ⟨h.1, h.2.1, h.2.2.2.1⟩

/-! ## C8 — manual-data override skips extraction -/

/-- **C8.** If all three required fields are filled when the drain loop
reaches an item, the iteration never invokes `extractDataFromImage`: the
image is still normalized, and the upload payload is built from the
user-provided values. -/
theorem c8_manual_override_skips_ai (it : BatchItem) (env : IterEnv)
    (hman : manualFilled it.data = true) :
    (processOne env it).invokedAI = false ∧
    (∀ proc, env.imageResult = .ok proc →
      (processOne env it).uploadAttempt = some (buildPayload it.data proc.base64) ∧
      (buildPayload it.data proc.base64).numeroDoc = it.data.numeroDoc ∧
      (buildPayload it.data proc.base64).serie = it.data.serie ∧
      (buildPayload it.data proc.base64).imagemBase64 = proc.base64) := by
  have hser : ¬ it.data.serie = "" := by
    simp [manualFilled] at hman
    tauto
  constructor
  · cases himg : env.imageResult with
    | error m => simp [processOne, himg]
    | ok proc => simp [processOne, himg, hman, uploadPhase_ai]
  · intro proc himg
    refine ⟨?_, rfl, ?_, rfl⟩
    · simp [processOne, himg, hman, uploadPhase_attempt]
    · simp [buildPayload, jsOr, hser]

/-- Witness for C8 at a concrete pre-filled item: extraction is skipped
and the payload carries the user's values. -/
theorem c8_manual_override_skips_ai_witness :
    (processOne c2Env { sampleItem 0 with data := cleanData }).invokedAI = false ∧
    (buildPayload cleanData sampleProc.base64).numeroDoc = cleanData.numeroDoc := by
  have h := c8_manual_override_skips_ai { sampleItem 0 with data := cleanData } c2Env (by decide)
  exact ⟨h.1, (h.2 sampleProc rfl).2.1⟩

/-! ## C4 — review gate -/

/-- In any single atomic block of any reachable state, the only block
that takes an item from `ready` to `uploading` is a
`handleConfirmUpload` block. -/
theorem ready_to_uploading_only_confirm {b : Bool} {s t : CState}
    (hr : Reach s) (hstep : Step b s t) {it1 : BatchItem}
    (h1 : it1 ∈ s.items) (hst1 : it1.status = .ready) {it2 : BatchItem}
    (h2 : it2 ∈ t.items) (hid : it2.id = it1.id) (hst2 : it2.status = .uploading) :
    b = true := by
  have inv := inv_reach hr
  cases hstep with
  | confirmStart id it hmem hid0 hstat hman => rfl
  | confirmOk id it hmem hid0 hstat hnl => rfl
  | confirmFail id m it hmem hid0 hstat hnl => rfl
  | enqueue specs hrun hfresh =>
    rcases List.mem_append.mp h2 with hold | hnew
    · have he : it2 = it1 := item_unique inv.nodup hold h1 hid
      rw [he, hst1] at hst2; cases hst2
    · obtain ⟨tr, _, rfl⟩ := List.mem_map.mp hnew
      simp [newBatchItem] at hst2
  | startLoop hrun hloop =>
    have he : it2 = it1 := item_unique inv.nodup h2 h1 hid
    rw [he, hst1] at hst2; cases hst2
  | endLoop hrun hloop =>
    have he : it2 = it1 := item_unique inv.nodup h2 h1 hid
    rw [he, hst1] at hst2; cases hst2
  | iterBegin id it hrun hloop hmem hid0 hstat =>
    obtain ⟨w, hw, hweq⟩ := mem_updItem h2
    by_cases hc : w.id = id
    · rw [if_pos hc] at hweq; subst hweq
      have hx : Status.processing_image = Status.uploading := hst2
      cases hx
    · rw [if_neg hc] at hweq; subst hweq
      have he : it2 = it1 := item_unique inv.nodup hw h1 hid
      rw [he, hst1] at hst2; cases hst2
  | iterImgFail id m hloop =>
    obtain ⟨w, hw, hweq⟩ := mem_updItem h2
    by_cases hc : w.id = id
    · rw [if_pos hc] at hweq; subst hweq
      have hx : Status.error = Status.uploading := hst2
      cases hx
    · rw [if_neg hc] at hweq; subst hweq
      have he : it2 = it1 := item_unique inv.nodup hw h1 hid
      rw [he, hst1] at hst2; cases hst2
  | iterImgManual id proc it hloop hmem hid0 hman =>
    obtain ⟨w, hw, hweq⟩ := mem_updItem h2
    by_cases hc : w.id = id
    · rw [if_pos hc] at hweq; subst hweq
      have hx : w.status = Status.uploading := hst2
      rw [loopCur_status inv hloop hw hc] at hx
      simp [phaseStatus] at hx
    · rw [if_neg hc] at hweq; subst hweq
      have he : it2 = it1 := item_unique inv.nodup hw h1 hid
      rw [he, hst1] at hst2; cases hst2
  | iterImgAI id proc it hloop hmem hid0 hman =>
    obtain ⟨w, hw, hweq⟩ := mem_updItem h2
    by_cases hc : w.id = id
    · rw [if_pos hc] at hweq; subst hweq
      have hx : Status.analyzing_ai = Status.uploading := hst2
      cases hx
    · rw [if_neg hc] at hweq; subst hweq
      have he : it2 = it1 := item_unique inv.nodup hw h1 hid
      rw [he, hst1] at hst2; cases hst2
  | iterTimerDone id hloop =>
    obtain ⟨w, hw, hweq⟩ := mem_updItem h2
    by_cases hc : w.id = id
    · rw [if_pos hc] at hweq; subst hweq
      have hwid : w.id = it1.id := hid
      have he : w = it1 := item_unique inv.nodup hw h1 hwid
      have hws := loopCur_status inv hloop hw hc
      rw [he, hst1] at hws
      simp [phaseStatus] at hws
    · rw [if_neg hc] at hweq; subst hweq
      have he : it2 = it1 := item_unique inv.nodup hw h1 hid
      rw [he, hst1] at hst2; cases hst2
  | iterAIFail id m hloop =>
    obtain ⟨w, hw, hweq⟩ := mem_updItem h2
    by_cases hc : w.id = id
    · rw [if_pos hc] at hweq; subst hweq
      have hx : Status.error = Status.uploading := hst2
      cases hx
    · rw [if_neg hc] at hweq; subst hweq
      have he : it2 = it1 := item_unique inv.nodup hw h1 hid
      rw [he, hst1] at hst2; cases hst2
  | iterAIHold id d hloop hflag =>
    obtain ⟨w, hw, hweq⟩ := mem_updItem h2
    by_cases hc : w.id = id
    · rw [if_pos hc] at hweq; subst hweq
      have hx : Status.ready = Status.uploading := hst2
      cases hx
    · rw [if_neg hc] at hweq; subst hweq
      have he : it2 = it1 := item_unique inv.nodup hw h1 hid
      rw [he, hst1] at hst2; cases hst2
  | iterAIPass id d hloop hflag =>
    obtain ⟨w, hw, hweq⟩ := mem_updItem h2
    by_cases hc : w.id = id
    · rw [if_pos hc] at hweq; subst hweq
      have hwid : w.id = it1.id := hid
      have he : w = it1 := item_unique inv.nodup hw h1 hwid
      have hws := loopCur_status inv hloop hw hc
      rw [he, hst1] at hws
      simp [phaseStatus] at hws
    · rw [if_neg hc] at hweq; subst hweq
      have he : it2 = it1 := item_unique inv.nodup hw h1 hid
      rw [he, hst1] at hst2; cases hst2
  | iterUpOk id hloop =>
    obtain ⟨w, hw, hweq⟩ := mem_updItem h2
    by_cases hc : w.id = id
    · rw [if_pos hc] at hweq; subst hweq
      have hx : Status.success = Status.uploading := hst2
      cases hx
    · rw [if_neg hc] at hweq; subst hweq
      have he : it2 = it1 := item_unique inv.nodup hw h1 hid
      rw [he, hst1] at hst2; cases hst2
  | iterUpFail id m hloop =>
    obtain ⟨w, hw, hweq⟩ := mem_updItem h2
    by_cases hc : w.id = id
    · rw [if_pos hc] at hweq; subst hweq
      have hx : Status.error = Status.uploading := hst2
      cases hx
    · rw [if_neg hc] at hweq; subst hweq
      have he : it2 = it1 := item_unique inv.nodup hw h1 hid
      rw [he, hst1] at hst2; cases hst2
  | edit id d it hmem hid0 hedit =>
    obtain ⟨w, hw, hweq⟩ := mem_updItem h2
    by_cases hc : w.id = id
    · rw [if_pos hc] at hweq; subst hweq
      have hwid : w.id = it1.id := hid
      have he : w = it1 := item_unique inv.nodup hw h1 hwid
      have hx : w.status = Status.uploading := hst2
      rw [he, hst1] at hx; cases hx
    · rw [if_neg hc] at hweq; subst hweq
      have he : it2 = it1 := item_unique inv.nodup hw h1 hid
      rw [he, hst1] at hst2; cases hst2
  | rotate id it hmem hid0 hedit =>
    obtain ⟨w, hw, hweq⟩ := mem_updItem h2
    by_cases hc : w.id = id
    · rw [if_pos hc] at hweq; subst hweq
      have hwid : w.id = it1.id := hid
      have he : w = it1 := item_unique inv.nodup hw h1 hwid
      have hx : w.status = Status.uploading := hst2
      rw [he, hst1] at hx; cases hx
    · rw [if_neg hc] at hweq; subst hweq
      have he : it2 = it1 := item_unique inv.nodup hw h1 hid
      rw [he, hst1] at hst2; cases hst2
  | retry id it hmem hid0 hstat =>
    obtain ⟨w, hw, hweq⟩ := mem_updItem h2
    by_cases hc : w.id = id
    · rw [if_pos hc] at hweq; subst hweq
      have hx : Status.queued = Status.uploading := hst2
      cases hx
    · rw [if_neg hc] at hweq; subst hweq
      have he : it2 = it1 := item_unique inv.nodup hw h1 hid
      rw [he, hst1] at hst2; cases hst2
  | remove id it hmem hid0 hact hsucc =>
    have hsub := (List.mem_filter.mp h2).1
    have he : it2 = it1 := item_unique inv.nodup hsub h1 hid
    rw [he, hst1] at hst2; cases hst2
  | clearFinished hrun =>
    have hsub := (List.mem_filter.mp h2).1
    have he : it2 = it1 := item_unique inv.nodup hsub h1 hid
    rw [he, hst1] at hst2; cases hst2
  | clearQueue hrun =>
    have hsub := (List.mem_filter.mp h2).1
    have he : it2 = it1 := item_unique inv.nodup hsub h1 hid
    rw [he, hst1] at hst2; cases hst2

/-- **C4.** An extraction result with `needsReview` or a missing
required field is held in `ready` with the explanatory message and no
upload attempt, keeping the cached image; and in the whole transition
system, the only atomic block ever taking a `ready` item to `uploading`
is a `handleConfirmUpload` block. -/
theorem c4_review_gate (it : BatchItem) (env : IterEnv) (proc : ProcessedLite)
    (d : ExtractedData)
    (himg : env.imageResult = .ok proc)
    (hman : manualFilled it.data = false)
    (hext : env.extractResult = .ok d)
    (hflag : flagged d = true) :
    (processOne env it).item.status = .ready ∧
    (processOne env it).item.errorMessage = some reviewHoldMsg ∧
    (processOne env it).uploadAttempt = none ∧
    (processOne env it).item.base64 = some proc.base64 ∧
    (∀ (b : Bool) (s t : CState), Reach s → Step b s t →
      ∀ it1, it1 ∈ s.items → it1.status = .ready →
      ∀ it2, it2 ∈ t.items → it2.id = it1.id → it2.status = .uploading → b = true) := by
  refine ⟨?_, ?_, ?_, ?_, ?_⟩
  · simp [processOne, himg, hman, hext, hflag]
  · simp [processOne, himg, hman, hext, hflag]
  · simp [processOne, himg, hman, hext, hflag]
  · simp [processOne, himg, hman, hext, hflag]
  · intro b s t hr hstep it1 h1 hst1 it2 h2 hid hst2
    exact ready_to_uploading_only_confirm hr hstep h1 hst1 h2 hid hst2

/-- Witness for C4 at a concrete flagged extraction. -/
theorem c4_review_gate_witness :
    (processOne { c2Env with extractResult := .ok flaggedData } (sampleItem 0)).item.status
      = .ready ∧
    (processOne { c2Env with extractResult := .ok flaggedData } (sampleItem 0)).uploadAttempt
      = none := by
  have h := c4_review_gate (sampleItem 0) { c2Env with extractResult := .ok flaggedData }
    sampleProc flaggedData rfl (by decide) rfl (by decide)
  exact ⟨h.1, h.2.2.1⟩

/-! ## C3 — sequential exclusivity -/

/-- Item 0 after its extraction was flagged for review: held in `ready`
with all fields filled by the model. -/
def c3Item0Ready : BatchItem :=
  { id := 0, fileIsPdf := false, previewUrl := some "pA", base64 := some "bA",
    rotation := 0, data := flaggedData, status := .ready,
    errorMessage := some reviewHoldMsg }

/-- The state reached when the user confirms item 0 while the drain loop
is awaiting extraction of item 1: two items are simultaneously active. -/
def c3BadState : CState :=
  { items := [{ c3Item0Ready with status := .uploading },
      { id := 1, fileIsPdf := false, previewUrl := some "pB", base64 := some "bB",
        rotation := 0, data := emptyData, status := .analyzing_ai, errorMessage := none }],
    running := true, loop := some (1, .aiWait) }

theorem c3_reach_bad : Reach c3BadState := by
  have h1 := Reach.tail false Reach.init
    (Step.enqueue [(0, false, "uA"), (1, false, "uB")] rfl (by decide))
  have h2 := Reach.tail false h1 (Step.startLoop rfl rfl)
  have h3 := Reach.tail false h2
    (Step.iterBegin 0 (newBatchItem 0 false "uA") rfl rfl (by decide) rfl (Or.inl rfl))
  have h4 := Reach.tail false h3
    (Step.iterImgAI 0 ⟨"bA", "pA"⟩
      { newBatchItem 0 false "uA" with status := .processing_image }
      rfl (by decide) rfl (by decide))
  have h5 := Reach.tail false h4 (Step.iterAIHold 0 flaggedData rfl (by decide))
  have h6 := Reach.tail false h5
    (Step.iterBegin 1 (newBatchItem 1 false "uB") rfl rfl (by decide) rfl (Or.inl rfl))
  have h7 := Reach.tail false h6
    (Step.iterImgAI 1 ⟨"bB", "pB"⟩
      { newBatchItem 1 false "uB" with status := .processing_image }
      rfl (by decide) rfl (by decide))
  have h8 := Reach.tail true h7
    (Step.confirmStart 0 c3Item0Ready (by decide) rfl rfl (by decide))
  exact h8

/-- **C3, counterexample.** The claim asserts at most one item is ever
in {`processing_image`, `analyzing_ai`, `uploading`} under any
interleaving *including* `handleConfirmUpload` issued while the loop
runs. But `handleConfirmUpload` has no `isRunning` guard and the confirm
button renders for any `ready` item: confirming a reviewed item while
the loop is mid-extraction on another item reaches a state with one item
`uploading` and another `analyzing_ai` simultaneously. -/
theorem c3_sequential_exclusivity_counterexample :
    Reach c3BadState ∧
    2 ≤ (c3BadState.items.filter fun it => activeS it.status).length :=
  ⟨c3_reach_bad, by decide⟩

/-- **C3, amended.** Under every interleaving that contains no
`handleConfirmUpload` block, at most one item at a time holds an
actively-processing status (the drain loop itself never overlaps two
items); concurrent confirm commands are the sole exception. -/
theorem c3_sequential_exclusivity_amended (st : CState) (h : ReachNC st) :
    ∀ it1 ∈ st.items, ∀ it2 ∈ st.items,
      activeS it1.status = true → activeS it2.status = true → it1 = it2 := by
  obtain ⟨inv, hx⟩ := inv_excl_reachNC h
  intro it1 h1 it2 h2 ha1 ha2
  obtain ⟨ph1, hp1⟩ := hx it1 h1 ha1
  obtain ⟨ph2, hp2⟩ := hx it2 h2 ha2
  rw [hp1] at hp2
  injection hp2 with h3
  injection h3 with h4 h5
  exact item_unique inv.nodup h1 h2 h4

/-- The single actively-processing item of the confirm-free witness
trace. -/
def c3ActiveItem : BatchItem :=
  { id := 0, fileIsPdf := false, previewUrl := some "pA", base64 := some "bA",
    rotation := 0, data := emptyData, status := .analyzing_ai, errorMessage := none }

/-- A confirm-free reachable state with one active item. -/
def c3WitState : CState :=
  { items := [c3ActiveItem, newBatchItem 1 false "uB"],
    running := true, loop := some (0, .aiWait) }

theorem c3_reachNC_wit : ReachNC c3WitState := by
  have h1 := ReachNC.tail ReachNC.init
    (Step.enqueue [(0, false, "uA"), (1, false, "uB")] rfl (by decide))
  have h2 := ReachNC.tail h1 (Step.startLoop rfl rfl)
  have h3 := ReachNC.tail h2
    (Step.iterBegin 0 (newBatchItem 0 false "uA") rfl rfl (by decide) rfl (Or.inl rfl))
  have h4 := ReachNC.tail h3
    (Step.iterImgAI 0 ⟨"bA", "pA"⟩
      { newBatchItem 0 false "uA" with status := .processing_image }
      rfl (by decide) rfl (by decide))
  exact h4

/-- Witness for the amended C3 at a concrete confirm-free trace. -/
theorem c3_sequential_exclusivity_amended_witness : c3ActiveItem = c3ActiveItem :=
  c3_sequential_exclusivity_amended c3WitState c3_reachNC_wit c3ActiveItem (by decide)
    c3ActiveItem (by decide) (by decide) (by decide)

/-! ## C9 — memory release on success -/

/-- The successful item of the C9 witness trace. -/
def c9SuccessItem : BatchItem :=
  { id := 0, fileIsPdf := false, previewUrl := some "pA", base64 := none,
    rotation := 0, data := cleanData, status := .success, errorMessage := none }

/-- A reachable state containing a successful item. -/
def c9State : CState :=
  { items := [c9SuccessItem], running := true, loop := none }

theorem c9_reach : Reach c9State := by
  have h1 := Reach.tail false Reach.init
    (Step.enqueue [(0, false, "uA")] rfl (by decide))
  have h2 := Reach.tail false h1 (Step.startLoop rfl rfl)
  have h3 := Reach.tail false h2
    (Step.iterBegin 0 (newBatchItem 0 false "uA") rfl rfl (by decide) rfl (Or.inl rfl))
  have h4 := Reach.tail false h3
    (Step.iterImgAI 0 ⟨"bA", "pA"⟩
      { newBatchItem 0 false "uA" with status := .processing_image }
      rfl (by decide) rfl (by decide))
  have h5 := Reach.tail false h4 (Step.iterAIPass 0 cleanData rfl (by decide))
  have h6 := Reach.tail false h5 (Step.iterUpOk 0 rfl)
  exact h6

/-- **C9.** In every reachable state — under the drain loop, the confirm
path, and all other handlers — an item with status `success` holds no
encoded image payload; since this is an invariant of every atomic block,
no operation ever re-attaches a payload to a successful item. -/
theorem c9_success_releases_image (st : CState) (h : Reach st) :
    ∀ it ∈ st.items, it.status = .success → it.base64 = none :=
  fun it hm hs => (inv_reach h).succClean it hm hs

/-- Witness for C9 at the concrete trace that drives one item to
`success` through the auto-upload path. -/
theorem c9_success_releases_image_witness : c9SuccessItem.base64 = none :=
  c9_success_releases_image c9State c9_reach c9SuccessItem (by decide) (by decide)

end Ctes
